import Mathlib

/-!
Verification development for the CLAIRPORT consolidation engine
(`src/processor.py`).

Modelling conventions of this shallow embedding:
* a pandas timestamp normalized to a day is an integer counting days since
  1970-01-01 (`ℤ`); the civil-calendar conversions follow the standard
  proleptic-Gregorian day-count algorithm, and `weekdayZ` uses Python's
  convention (Monday = 0 … Sunday = 6);
* a numeric cell of a data frame is an `Option ℚ` (`none` models `NaN`);
  float arithmetic is modelled by exact rational arithmetic;
* a row of the merged wide table is an association list from column names
  to cells, in pandas column order (`Cells`);
* `pandas.Series.round(4)` is modelled by rational rounding to four decimal
  places (`round4`); the examples below never sit on a rounding tie, so the
  difference between numpy's half-even tie rule and `round` is immaterial;
* pandas `groupby(...).agg` sorts its group keys ascending, drops `NaN`
  in `sum` (empty sums give `0`) and in `mean` (all-`NaN` means give `NaN`).
-/

attribute [local semireducible] Rat.mul Rat.inv Rat.add Rat.sub

set_option maxRecDepth 100000

/-! ## Calendar arithmetic (days since 1970-01-01) -/

/-- Python `Timestamp.weekday()`: Monday = 0 … Sunday = 6 (1970-01-01 was a
Thursday). -/
def weekdayZ (z : ℤ) : ℕ := ((z + 3) % 7).toNat

/-- Convert a day count to a civil `(year, month, day)` triple
(proleptic Gregorian calendar). -/
def civilFromDays (z : ℤ) : ℤ × ℕ × ℕ :=
  let z' := z + 719468
  let era := (if 0 ≤ z' then z' else z' - 146096) / 146097
  let doe := (z' - era * 146097).toNat
  let yoe := (doe - doe / 1460 + doe / 36524 - doe / 146096) / 365
  let doy := doe - (365 * yoe + yoe / 4 - yoe / 100)
  let mp := (5 * doy + 2) / 153
  let d := doy - (153 * mp + 2) / 5 + 1
  let m := if mp < 10 then mp + 3 else mp - 9
  (if m ≤ 2 then (yoe : ℤ) + era * 400 + 1 else (yoe : ℤ) + era * 400, m, d)

/-- Inverse conversion: a civil date to its day count. -/
def daysFromCivil (y : ℤ) (m d : ℕ) : ℤ :=
  let y' := if m ≤ 2 then y - 1 else y
  let era := (if 0 ≤ y' then y' else y' - 399) / 400
  let yoe := (y' - era * 400).toNat
  let mp := if 2 < m then m - 3 else m + 9
  let doy := (153 * mp + 2) / 5 + d - 1
  let doe := yoe * 365 + yoe / 4 - yoe / 100 + doy
  era * 146097 + (doe : ℤ) - 719468

def yearOf (z : ℤ) : ℤ := (civilFromDays z).1

def monthOf (z : ℤ) : ℕ := (civilFromDays z).2.1

def dayOf (z : ℤ) : ℕ := (civilFromDays z).2.2

/-- Python `d.replace(day=1)`: first day of the month of `z`. -/
def monthStartZ (z : ℤ) : ℤ := z - ((dayOf z : ℤ) - 1)

/-- The Spanish month-name dictionary `meses` of `semana_humana` and
`build_transposed_view`. -/
def mesName : ℕ → String
  | 1 => "Enero" | 2 => "Febrero" | 3 => "Marzo" | 4 => "Abril"
  | 5 => "Mayo" | 6 => "Junio" | 7 => "Julio" | 8 => "Agosto"
  | 9 => "Septiembre" | 10 => "Octubre" | 11 => "Noviembre" | 12 => "Diciembre"
  | _ => ""

/-- Zero-pad a natural number to two digits (Python `{...:02d}`). -/
def pad2 (n : ℕ) : String := if n < 10 then "0" ++ toString n else toString n

/-- Zero-pad a year to four digits (`strftime` `%Y`, `str(date)`). -/
def pad4 (y : ℤ) : String :=
  if y < 0 then toString y
  else String.mk (List.replicate (4 - (toString y).length) '0') ++ toString y

/-- `d.strftime("%d/%m/%Y")`, the day-column label of the pivot. -/
def fmtDate (z : ℤ) : String :=
  pad2 (dayOf z) ++ "/" ++ pad2 (monthOf z) ++ "/" ++ pad4 (yearOf z)

/-- Python `str(d.date())`, `YYYY-MM-DD`. -/
def fmtISO (z : ℤ) : String :=
  pad4 (yearOf z) ++ "-" ++ pad2 (monthOf z) ++ "-" ++ pad2 (dayOf z)

/-- `semana_humana` (processor.py lines 299-306): the Monday-Sunday week
label `"{lunes.day}-{domingo.day} {meses[domingo.month]}"` — day numbers
unpadded, month name of the Sunday, and no year. -/
def semanaHumana (fecha : ℤ) : String :=
  let lunes := fecha - (weekdayZ fecha : ℤ)
  let domingo := lunes + 6
  toString (dayOf lunes) ++ "-" ++ toString (dayOf domingo) ++ " " ++
    mesName (monthOf domingo)

/-- `week_label` of `build_transposed_view`:
`"Semana {s.day:02d} al {e.day:02d} {meses[e.month]} {e.year}"`. -/
def weekLabelZ (s e : ℤ) : String :=
  "Semana " ++ pad2 (dayOf s) ++ " al " ++ pad2 (dayOf e) ++ " " ++
    mesName (monthOf e) ++ " " ++ toString (yearOf e)

/-- `month_label` of `build_transposed_view`: `"Mes {meses[a.month]} {a.year}"`. -/
def monthLabelZ (z : ℤ) : String :=
  "Mes " ++ mesName (monthOf z) ++ " " ++ toString (yearOf z)

/-! ## Cells of the wide table -/

/-- A data-frame row without its date key: column names paired with numeric
cells; `none` is `NaN`. -/
abbrev Cells := List (String × Option ℚ)

/-- Whether column `c` exists in the row, and its cell when it does. -/
def lookupV : Cells → String → Option (Option ℚ)
  | [], _ => none
  | (c', v) :: t, c => if c' = c then some v else lookupV t c

/-- The value of column `c` (a missing column reads as `NaN`). -/
def getV (cs : Cells) (c : String) : Option ℚ := (lookupV cs c).getD none

/-- Column assignment `df[c] = v`: replace in place, or append a new column
at the end. -/
def setV : Cells → String → Option ℚ → Cells
  | [], c, v => [(c, v)]
  | (c', v') :: t, c, v =>
      if c' = c then (c, v) :: t else (c', v') :: setV t c v

/-- `safe_pct` (processor.py lines 20-22): `100 * numer / denom`, with a zero
or missing denominator giving `NaN`. -/
def safePct (numer denom : Option ℚ) : Option ℚ :=
  match numer, denom with
  | some n, some d => if d = 0 then none else some (100 * n / d)
  | _, _ => none

/-- `Series.round(4)` on a single rational. -/
def round4 (q : ℚ) : ℚ := (round (q * 10000) : ℤ) / 10000

/-- `Series.round(4)` on a cell (`NaN` stays `NaN`). -/
def round4O : Option ℚ → Option ℚ
  | none => none
  | some q => some (round4 q)

/-! ## The schema of the merged wide table

`procesar_global` merges ten reduced per-source tables whose output column
sets are fixed by the reducers (processor.py §§ process_ventas …
process_whatsapp). -/

def ventasCols : List String :=
  ["Ventas_Totales", "Ventas_Compartidas", "Ventas_Exclusivas",
   "Q_pasajeros", "Q_pasajeros_exclusives", "Q_pasajeros_compartidas",
   "Q_journeys"]

def perfCols : List String :=
  ["Q_Encuestas", "CSAT", "NPS Score", "Firt (h)", "firt_pct", "Furt (h)",
   "furt_pct", "Reopen", "Q_Ticket", "Q_Tickets_Resueltos"]

def audCols : List String := ["Q_Auditorias", "Nota_Auditorias"]

def offCols : List String := ["OFF_TIME"]

def durCols : List String := ["Duracion_90"]

def dur30Cols : List String := ["Duracion_30"]

def inspCols : List String :=
  ["Inspecciones_Q", "Cump_Exterior", "Incump_Exterior", "Cump_Interior",
   "Incump_Interior", "Cump_Conductor", "Incump_Conductor"]

def abCols : List String := ["Abandonados"]

def rescCols : List String := ["Rescates"]

def waCols : List String := ["Q_Tickets_WA"]

/-- `sum_cols` (processor.py lines 332-336). -/
def sum_cols : List String :=
  ["Q_Encuestas", "Reopen", "Q_Ticket", "Q_Tickets_Resueltos",
   "Q_Tickets_WA", "Q_Auditorias", "Ventas_Totales", "Ventas_Compartidas",
   "Ventas_Exclusivas", "Q_journeys", "Q_pasajeros",
   "Q_pasajeros_exclusives", "Q_pasajeros_compartidas", "OFF_TIME",
   "Duracion_90", "Duracion_30", "Abandonados", "Rescates",
   "Inspecciones_Q", "Cump_Exterior", "Incump_Exterior", "Cump_Interior",
   "Incump_Interior", "Cump_Conductor", "Incump_Conductor"]

/-- `mean_cols` (processor.py line 338). -/
def mean_cols : List String :=
  ["CSAT", "NPS Score", "Firt (h)", "Furt (h)", "firt_pct", "furt_pct",
   "Nota_Auditorias"]

/-- `operativos` (processor.py line 348). -/
def operativos : List String :=
  ["OFF_TIME", "Duracion_90", "Duracion_30", "Abandonados", "Rescates"]

/-- `pct_cols` accumulated in the loop of lines 349-353. -/
def pctCols : List String := operativos.map (· ++ "_pct_pasajeros")

/-! ## Merge, filter, fill, derive (procesar_global, lines 324-353) -/

/-- A reduced per-source daily table: one `(fecha, cells)` row per covered
date (the input contract of spec §6 — dates unique per table). -/
abbrev DTable := List (ℤ × Cells)

/-- Find the row of a source table for a date. -/
def rowAt : DTable → ℤ → Option Cells
  | [], _ => none
  | (t, cs) :: r, d => if t = d then some cs else rowAt r d

/-- Insert into a sorted list with respect to a boolean comparison. -/
def insLe {α : Type} (le : α → α → Bool) (x : α) : List α → List α
  | [] => [x]
  | y :: t => if le x y then x :: y :: t else y :: insLe le x t

/-- Insertion sort with respect to a boolean comparison — the ascending
key sort performed by pandas `groupby` and `sorted(...)`. -/
def sortByLe {α : Type} (le : α → α → Bool) : List α → List α
  | [] => []
  | x :: t => insLe le x (sortByLe le t)

def intLe (a b : ℤ) : Bool := decide (a ≤ b)

/-- Lexicographic order on character lists — Python's string comparison by
code point, used by pandas when sorting string group keys. -/
def charListLe : List Char → List Char → Bool
  | [], _ => true
  | _ :: _, [] => false
  | a :: s, b :: t => if a < b then true else if b < a then false else charListLe s t

/-- Python string `<=` (code-point lexicographic). -/
def strLe (s t : String) : Bool := charListLe s.data t.data

/-- Whether the first character list starts the second. -/
def leadsWith : List Char → List Char → Bool
  | [], _ => true
  | _ :: _, [] => false
  | a :: s, b :: t => a = b && leadsWith s t

/-- Replace every occurrence of `pat` by `rep` (fueled structural recursion;
the fuel is the input length, which always suffices). -/
def replaceList (pat rep : List Char) : ℕ → List Char → List Char
  | _, [] => []
  | 0, l => l
  | fuel + 1, c :: rest =>
      if pat ≠ [] ∧ leadsWith pat (c :: rest) then
        rep ++ replaceList pat rep fuel ((c :: rest).drop pat.length)
      else c :: replaceList pat rep fuel rest

/-- Python `str.replace(pat, rep)` (pandas `Series.str.replace`). -/
def strReplace (s pat rep : String) : String :=
  ⟨replaceList pat.data rep.data s.data.length s.data⟩

/-- Python `str.strip()`: drop surrounding whitespace. -/
def trimStr (s : String) : String :=
  ⟨((s.data.dropWhile Char.isWhitespace).reverse.dropWhile
      Char.isWhitespace).reverse⟩

/-- Ascending sort of the distinct values of a date list (`sorted(unique)`
and the groupby key order of pandas). -/
def sortedDates (l : List ℤ) : List ℤ := sortByLe intLe l.dedup

/-- The ten sources, each with its fixed output schema, in merge order
(lines 324-328). -/
def sourceList (v p a o d d30 insp ab resc wa : DTable) :
    List (List String × DTable) :=
  [(ventasCols, v), (perfCols, p), (audCols, a), (offCols, o),
   (durCols, d), (dur30Cols, d30), (inspCols, insp), (abCols, ab),
   (rescCols, resc), (waCols, wa)]

/-- The cells of the outer-joined row for date `t`: each source contributes
its schema columns, with `NaN` throughout when it has no row at `t`. -/
def mergedCells (srcs : List (List String × DTable)) (t : ℤ) : Cells :=
  srcs.flatMap fun s =>
    match rowAt s.2 t with
    | some cs => s.1.map fun c => (c, getV cs c)
    | none => s.1.map fun c => (c, (none : Option ℚ))

/-- Lines 324-330: full outer join of the ten tables on `fecha`, restriction
to `date_from ≤ fecha ≤ date_to`, ascending sort by `fecha`. -/
def mergeFilterSort (srcs : List (List String × DTable))
    (date_from date_to : ℤ) : List (ℤ × Cells) :=
  let allDates := srcs.flatMap fun s => s.2.map (·.1)
  let dates :=
    (sortedDates allDates).filter fun t => date_from ≤ t ∧ t ≤ date_to
  dates.map fun t => (t, mergedCells srcs t)

/-- One pass of a column-rewriting loop `for c in l: if g: df[c] = h(df[c])`;
`g` and `h` see only the column's own presence/cell (`lookupV cs c`) and its
name. -/
def keyFold (g : String → Option (Option ℚ) → Bool)
    (h : String → Option (Option ℚ) → Option ℚ) (l : List String)
    (cs : Cells) : Cells :=
  l.foldl (fun cs c =>
    if g c (lookupV cs c) then setV cs c (h c (lookupV cs c)) else cs) cs

/-- Lines 340-342: `df[c] = df[c].fillna(0)` for every `sum_cols` column
present. -/
def sumFill (cs : Cells) : Cells :=
  keyFold (fun _ o => o.isSome) (fun _ o => some ((o.getD none).getD 0))
    sum_cols cs

/-- Lines 344-346: `df[c] = df[c].replace({0: np.nan})` for every `mean_cols`
column present other than `Nota_Auditorias`. -/
def meanRepl (cs : Cells) : Cells :=
  keyFold (fun c o => o.isSome && c ≠ "Nota_Auditorias")
    (fun _ o => if (o.getD none) = some 0 then none else o.getD none)
    mean_cols cs

/-- Lines 349-353 (and 360-361, 366-367): for each operational counter,
`df[op + "_pct_pasajeros"] = safe_pct(df[op], df["Q_pasajeros"]).round(4)`. -/
def assignPcts (cs : Cells) : Cells :=
  operativos.foldl (fun cs op =>
    setV cs (op ++ "_pct_pasajeros")
      (round4O (safePct (getV cs op) (getV cs "Q_pasajeros")))) cs

/-! ## Weekly and period rollups (lines 355-367) -/

/-- Sum aggregation of a column over a group: pandas `sum` skips `NaN` and
returns `0` on an empty or all-`NaN` group. -/
def aggSumQ (g : List Cells) (c : String) : ℚ :=
  (g.filterMap fun cs => getV cs c).sum

/-- Mean aggregation of a column over a group: pandas `mean` skips `NaN` and
returns `NaN` when nothing is left. -/
def aggMeanQ (g : List Cells) (c : String) : Option ℚ :=
  let vs := g.filterMap fun cs => getV cs c
  if vs = [] then none else some (vs.sum / vs.length)

/-- The `agg` dictionary of lines 357-358: `sum` for `sum_cols`, `mean` for
`mean_cols`, built in that key order. -/
def aggKeys : List String := sum_cols ++ mean_cols

/-- The aggregated row of one group. -/
def aggCells (g : List Cells) : Cells :=
  aggKeys.map fun c =>
    (c, if c ∈ sum_cols then some (aggSumQ g c) else aggMeanQ g c)

/-- Ascending (lexicographic) sort of distinct string labels — the group-key
order produced by pandas `groupby`. -/
def sortedLabels (l : List String) : List String := sortByLe strLe l.dedup

/-- `groupby(key).agg(agg)` followed by the ratio recomputation loop: one
output row per distinct label, in sorted label order. -/
def groupAgg (key : ℤ → String) (rows : List (ℤ × Cells)) :
    List (String × Cells) :=
  (sortedLabels (rows.map fun r => key r.1)).map fun L =>
    (L, assignPcts (aggCells ((rows.filter fun r => key r.1 = L).map (·.2))))

/-- The period grouping key of line 364: `f"{date_from.date()} → {date_to.date()}"`. -/
def periodLabel (date_from date_to : ℤ) : String :=
  fmtISO date_from ++ " → " ++ fmtISO date_to

/-! ## Transposed view (build_transposed_view, lines 373-449) -/

/-- `recompute_pct` (lines 386-389): ratio of the span's summed counter to
the span's summed `Q_pasajeros`, `NaN` when the denominator is zero, and not
rounded. -/
def recomputePct (sub : List Cells) (op : String) : Option ℚ :=
  let denom := aggSumQ sub "Q_pasajeros"
  if denom = 0 then none else some (aggSumQ sub op / denom * 100)

/-- The per-KPI value list of a week-ending or month-ending column
(lines 402-407 and 414-419): ratio-class recomputed, sum-class summed,
mean-class averaged, anything else `NaN`. -/
def spanVals (kpis : List String) (sub : List Cells) : List (Option ℚ) :=
  kpis.map fun k =>
    if k ∈ pctCols then recomputePct sub (strReplace k "_pct_pasajeros" "")
    else if k ∈ sum_cols then some (aggSumQ sub k)
    else if k ∈ mean_cols then aggMeanQ sub k
    else none

/-- The day column for date `d` (line 395-397): the single daily row's
values, `NaN` if somehow absent. -/
def dayVals (df : List (ℤ × Cells)) (kpis : List String) (d : ℤ) :
    List (Option ℚ) :=
  match (df.filter fun r => r.1 = d).head? with
  | some r => kpis.map fun k => getV r.2 k
  | none => kpis.map fun _ => none

/-- Rows of `df` in the inclusive date span `[lo, hi]`. -/
def spanCells (df : List (ℤ × Cells)) (lo hi : ℤ) : List Cells :=
  (df.filter fun r => lo ≤ r.1 ∧ r.1 ≤ hi).map (·.2)

/-- The month-ending condition of line 411 on the next covered date. -/
def monthCond (d : ℤ) : Option ℤ → Bool
  | none => true
  | some nd => monthOf nd ≠ monthOf d || yearOf nd ≠ yearOf d

/-- The column-emitting walk of lines 394-420 over the distinct covered
dates in ascending order: a day column for each date, a week-ending column
after each Sunday, and a month-ending column when the next covered date
falls in a different month or year (or there is none). -/
def ptLoop (df : List (ℤ × Cells)) (kpis : List String) :
    List ℤ → List (String × List (Option ℚ))
  | [] => []
  | d :: rest =>
      (fmtDate d, dayVals df kpis d) ::
      ((if weekdayZ d = 6 then
          [(weekLabelZ (d - 6) d, spanVals kpis (spanCells df (d - 6) d))]
        else []) ++
       (if monthCond d rest.head? then
          [(monthLabelZ d, spanVals kpis (spanCells df (monthStartZ d) d))]
        else []) ++
       ptLoop df kpis rest)

/-- `grupos` (lines 422-429): the fixed section-to-KPI mapping. -/
def grupos : List (String × List String) :=
  [("VENTAS (MONTO)",
    ["Ventas_Totales", "Ventas_Compartidas", "Ventas_Exclusivas"]),
   ("VENTAS (VOLUMEN)",
    ["Q_journeys", "Q_pasajeros", "Q_pasajeros_exclusives",
     "Q_pasajeros_compartidas"]),
   ("PERFORMANCE",
    ["Q_Ticket", "Q_Tickets_WA", "Q_Tickets_Resueltos", "Reopen"]),
   ("CALIDAD (ENCUESTAS & SLA)",
    ["Q_Encuestas", "CSAT", "NPS Score", "Firt (h)", "firt_pct", "Furt (h)",
     "furt_pct", "Q_Auditorias", "Nota_Auditorias"]),
   ("INSPECCIONES",
    ["Inspecciones_Q", "Cump_Exterior", "Incump_Exterior", "Cump_Interior",
     "Incump_Interior", "Cump_Conductor", "Incump_Conductor"]),
   ("OTROS (OPERATIVOS)",
    ["OFF_TIME", "OFF_TIME_pct_pasajeros", "Duracion_90",
     "Duracion_90_pct_pasajeros", "Duracion_30", "Duracion_30_pct_pasajeros",
     "Abandonados", "Abandonados_pct_pasajeros", "Rescates",
     "Rescates_pct_pasajeros"])]

/-- Lines 431-446: the reindexed row labels — a synthetic `=== section ===`
header before each section's present KPIs, and a trailing catch-all for
unclaimed KPIs. -/
def sectionIndex (kpis : List String) : List String :=
  let step := grupos.foldl (fun (acc : List String × List String) g =>
    let pres := g.2.filter (· ∈ kpis)
    if pres ≠ [] then
      (acc.1 ++ ["=== " ++ g.1 ++ " ==="] ++ pres, acc.2 ++ pres)
    else acc) ([], [])
  let restantes := kpis.filter (· ∉ step.2)
  step.1 ++ (if restantes ≠ [] then ["=== OTROS KPI ==="] ++ restantes else [])

/-- Read the entry of a labeled value list (a `NaN`-filled reindex lookup). -/
def rowOf (names : List String) (vals : List (Option ℚ)) (k : String) :
    Option ℚ :=
  getV (names.zip vals) k

/-- `result.reindex(new_index)`: remap a column's values from the `kpis`
row order to the sectioned row order, headers becoming `NaN`. -/
def reVals (kpis newIdx : List String) (vals : List (Option ℚ)) :
    List (Option ℚ) :=
  newIdx.map fun n => rowOf kpis vals n

/-- The transposed view: `index` is the `KPI` name column (row labels), and
`cols` the ordered day/week/month columns. -/
structure Pivot where
  index : List String
  cols : List (String × List (Option ℚ))
  deriving Repr, DecidableEq

/-- `build_transposed_view` (lines 373-449). -/
def buildTransposedView (df : List (ℤ × Cells)) : Pivot :=
  match df with
  | [] => ⟨[], []⟩
  | r0 :: _ =>
      let kpis := r0.2.map (·.1)
      let allDates := sortedDates (df.map (·.1))
      let cols0 := ptLoop df kpis allDates
      let newIdx := sectionIndex kpis
      ⟨newIdx, cols0.map fun lc => (lc.1, reVals kpis newIdx lc.2)⟩

/-! ## procesar_global (lines 312-371) -/

/-- The four output tables of `procesar_global`. -/
structure GlobalOut where
  diario : List (ℤ × Cells)
  semanal : List (String × Cells)
  periodo : List (String × Cells)
  pivot : Pivot
  deriving Repr, DecidableEq

/-- `procesar_global` from the merge on (lines 324-371), consuming the ten
already-reduced daily tables (spec §6 input contract).  No start/end
validation appears in the source: the date filter simply runs. -/
def procesarGlobal (v p a o d d30 insp ab resc wa : DTable)
    (date_from date_to : ℤ) : GlobalOut :=
  let srcs := sourceList v p a o d d30 insp ab resc wa
  let mfs := mergeFilterSort srcs date_from date_to
  let diario := mfs.map fun r => (r.1, assignPcts (meanRepl (sumFill r.2)))
  let semanal := groupAgg semanaHumana diario
  let periodo := groupAgg (fun _ => periodLabel date_from date_to) diario
  ⟨diario, semanal, periodo, buildTransposedView diario⟩

/-! ## The per-source daily reducers (processor.py lines 28-293)

A raw uploaded table is modelled as named columns over typed cells.  The
locale/string parsing that the spec assigns to the excluded normalization
layer (spec §6, §9) is modelled coarsely: a cell already typed as a date
passes `pd.to_datetime(..., errors="coerce")` through, and anything else
coerces to `NaT`; likewise `pd.to_numeric(..., errors="coerce")` keeps
numbers and coerces everything else to `NaN`.  Column bookkeeping — which
accesses raise `KeyError`, which reducers guard and return an
empty-but-correctly-named table — follows the source line by line. -/

inductive PyVal where
  | str (s : String)
  | num (q : ℚ)
  | date (z : ℤ)
  | na
  deriving Repr, DecidableEq

inductive PyErr where
  | keyError (c : String)
  deriving Repr, DecidableEq

/-- A raw data frame: column names and rows of named typed cells. -/
structure RawDF where
  cols : List String
  rows : List (List (String × PyVal))
  deriving Repr, DecidableEq

deriving instance DecidableEq for Except

/-- The cell of a row under a column name (`NaN` when absent). -/
def cellAtP : List (String × PyVal) → String → PyVal
  | [], _ => .na
  | (c', v) :: t, c => if c' = c then v else cellAtP t c

/-- Row-level column assignment: replace in place or append. -/
def setPV : List (String × PyVal) → String → PyVal → List (String × PyVal)
  | [], c, v => [(c, v)]
  | (c', v') :: t, c, v =>
      if c' = c then (c, v) :: t else (c', v') :: setPV t c v

/-- `df[c]`: the column's cells, raising `KeyError` when the column is
absent — pandas' behavior for a missing column access. -/
def RawDF.colE (df : RawDF) (c : String) : Except PyErr (List PyVal) :=
  if c ∈ df.cols then .ok (df.rows.map fun r => cellAtP r c)
  else .error (.keyError c)

/-- `df[c] = vs`: full-column assignment. -/
def RawDF.setCol (df : RawDF) (c : String) (vs : List PyVal) : RawDF :=
  ⟨if c ∈ df.cols then df.cols else df.cols ++ [c],
   (df.rows.zip vs).map fun rv => setPV rv.1 c rv.2⟩

/-- In-place column rewrite `df[c] = f(df[c])` for a present column. -/
def RawDF.setColF (df : RawDF) (c : String) (f : PyVal → PyVal) : RawDF :=
  ⟨df.cols, df.rows.map fun r => setPV r c (f (cellAtP r c))⟩

/-- `clean_cols` (lines 10-18): strip the UTF-8 BOM artifacts and
surrounding whitespace from a column name. -/
def cleanName (s : String) : String :=
  trimStr (strReplace (strReplace s "ï»¿" "") "﻿" "")

/-- `clean_cols` applied to a whole frame. -/
def cleanCols (df : RawDF) : RawDF :=
  ⟨df.cols.map cleanName,
   df.rows.map (List.map fun cv => (cleanName cv.1, cv.2))⟩

/-- `pd.to_datetime(..., errors="coerce").dt.normalize()`, coarsely: typed
dates pass, everything else becomes `NaT`. -/
def toDatetimeNorm : PyVal → PyVal
  | .date z => .date z
  | _ => .na

/-- `pd.to_numeric(..., errors="coerce")` (after the source's string
cleanup), coarsely: numbers pass, everything else becomes `NaN`. -/
def toNumericCoerce : PyVal → PyVal
  | .num q => .num q
  | _ => .na

/-- `astype(str)` of a cell, as far as the reducers consume it. -/
def pyStr : PyVal → String
  | .str s => s
  | .num q => toString q
  | .date z => fmtISO z
  | .na => "nan"

/-- Whether a cell is non-null numeric data (`Series.notna` after numeric
coercion). -/
def isNumPV : PyVal → Bool
  | .num _ => true
  | _ => false

/-- `groupby("fecha").agg(...)`: one output row per distinct non-`NaT` date
in ascending order; `true` aggregates by `sum` (skipping non-numeric,
empty sum `0`), `false` by `mean` (`NaN` when nothing is numeric).  A
column named by the dictionary but absent raises `KeyError`. -/
def groupbyAggRaw (df : RawDF) (key : String) (aggs : List (String × Bool)) :
    Except PyErr RawDF :=
  match aggs.find? fun a => !(df.cols.contains a.1) with
  | some a => .error (.keyError a.1)
  | none =>
      let dates := sortedDates (df.rows.filterMap fun r =>
        match cellAtP r key with | .date z => some z | _ => none)
      .ok ⟨key :: aggs.map (·.1), dates.map fun t =>
        let g := df.rows.filter fun r => cellAtP r key = PyVal.date t
        (key, PyVal.date t) :: aggs.map fun a =>
          let vs := g.filterMap fun r =>
            match cellAtP r a.1 with | .num q => some q | _ => none
          (a.1, if a.2 then PyVal.num vs.sum
                else if vs = [] then PyVal.na
                else PyVal.num (vs.sum / vs.length))⟩

/-- Output schema of the no-date-column fallback of `process_ventas`
(lines 38-41). -/
def ventasEmptyCols : List String :=
  ["fecha", "Ventas_Totales", "Ventas_Compartidas", "Ventas_Exclusivas",
   "Q_journeys", "Q_pasajeros", "Q_pasajeros_exclusives",
   "Q_pasajeros_compartidas"]

/-- `process_ventas` (lines 28-104). -/
def process_ventas (df0 : RawDF) : Except PyErr RawDF := do
  let df := cleanCols df0
  let fechaSrc : Option String :=
    if "tm_start_local_at" ∈ df.cols then some "tm_start_local_at"
    else if "createdAt_local" ∈ df.cols then some "createdAt_local"
    else if "date" ∈ df.cols then some "date"
    else none
  match fechaSrc with
  | none => return ⟨ventasEmptyCols, []⟩
  | some c => do
    let fv ← df.colE c
    let df := df.setCol "fecha" (fv.map toDatetimeNorm)
    let df ←
      if "qt_price_local" ∈ df.cols then do
        let pv ← df.colE "qt_price_local"
        pure (df.setCol "qt_price_local" (pv.map toNumericCoerce))
      else
        pure (df.setCol "qt_price_local" (df.rows.map fun _ => PyVal.na))
    let prod : List String :=
      if "ds_product_name" ∈ df.cols then
        df.rows.map fun r => (pyStr (cellAtP r "ds_product_name")).toLower.trim
      else df.rows.map fun _ => ""
    let price ← df.colE "qt_price_local"
    let df := df.setCol "Ventas_Totales" price
    let df := df.setCol "Ventas_Compartidas" ((prod.zip price).map fun pv =>
      if pv.1 = "van_compartida" then pv.2 else PyVal.num 0)
    let df := df.setCol "Ventas_Exclusivas" ((prod.zip price).map fun pv =>
      if pv.1 = "van_exclusive" then pv.2 else PyVal.num 0)
    let frCol := ["finishReason", "finisReason", "FinishReason",
                  "finish_reason", "Finish Reason"].find? (· ∈ df.cols)
    let isDrop : List Bool ←
      match frCol with
      | none => pure (df.rows.map fun _ => false)
      | some fc => do
          let vs ← df.colE fc
          pure (vs.map fun v => (pyStr v).trim.toUpper == "FINISH_REASON_DROPOFF")
    let df := df.setCol "Q_pasajeros"
      (isDrop.map fun b => PyVal.num (if b then 1 else 0))
    let df := df.setCol "Q_pasajeros_exclusives"
      ((isDrop.zip prod).map fun bp =>
        PyVal.num (if bp.1 ∧ bp.2 = "van_exclusive" then 1 else 0))
    let df := df.setCol "Q_pasajeros_compartidas"
      ((isDrop.zip prod).map fun bp =>
        PyVal.num (if bp.1 ∧ bp.2 = "van_compartida" then 1 else 0))
    let jid : List String ←
      if "journey_id" ∈ df.cols then do
        let vs ← df.colE "journey_id"
        pure (vs.map fun v => (pyStr v).trim)
      else pure (df.rows.map fun _ => "")
    let df := df.setCol "_jid" (jid.map PyVal.str)
    let diario ← groupbyAggRaw df "fecha"
      [("Ventas_Totales", true), ("Ventas_Compartidas", true),
       ("Ventas_Exclusivas", true), ("Q_pasajeros", true),
       ("Q_pasajeros_exclusives", true), ("Q_pasajeros_compartidas", true)]
    if "journey_id" ∈ df.cols then
      return ⟨diario.cols ++ ["Q_journeys"], diario.rows.map fun r =>
        match cellAtP r "fecha" with
        | PyVal.date t =>
            let ids := (df.rows.zip isDrop).filterMap fun rb =>
              if rb.2 ∧ cellAtP rb.1 "fecha" = PyVal.date t then
                match cellAtP rb.1 "_jid" with
                | PyVal.str s => if s ≠ "" then some s else none
                | _ => none
              else none
            r ++ [("Q_journeys", PyVal.num ((ids.dedup).length : ℚ))]
        | _ => r ++ [("Q_journeys", PyVal.num 0)]⟩
    else
      return ⟨diario.cols ++ ["Q_journeys"],
        diario.rows.map fun r => r ++ [("Q_journeys", PyVal.num 0)]⟩

/-- The rename map of line 112. -/
def renamePerf (c : String) : String :=
  if c = "% Firt" then "firt_pct" else if c = "% Furt" then "furt_pct" else c

/-- `cols_to_force_numeric` (line 114). -/
def perfForceCols : List String :=
  ["CSAT", "NPS Score", "Firt (h)", "firt_pct", "Furt (h)", "furt_pct"]

/-- `process_performance` (lines 110-146): note that the accesses to
`Fecha de Referencia`, `Status`, `CSAT` and `NPS Score` are unguarded. -/
def process_performance (df0 : RawDF) : Except PyErr RawDF := do
  let df := cleanCols df0
  let df : RawDF := ⟨df.cols.map renamePerf,
    df.rows.map (List.map fun cv => (renamePerf cv.1, cv.2))⟩
  let df := perfForceCols.foldl (fun df c =>
    if c ∈ df.cols then df.setColF c toNumericCoerce else df) df
  let fv ← df.colE "Fecha de Referencia"
  let df := df.setCol "fecha" (fv.map toDatetimeNorm)
  let df := df.setCol "Q_Ticket" (df.rows.map fun _ => PyVal.num 1)
  let st ← df.colE "Status"
  let df := df.setCol "Q_Tickets_Resueltos" (st.map fun v =>
    PyVal.num (if (pyStr v).toLower.trim ≠ "pending" then 1 else 0))
  let cs ← df.colE "CSAT"
  let ns ← df.colE "NPS Score"
  let df := df.setCol "Q_Encuestas" ((cs.zip ns).map fun p =>
    PyVal.num (if isNumPV p.1 ∨ isNumPV p.2 then 1 else 0))
  groupbyAggRaw df "fecha"
    [("Q_Encuestas", true), ("CSAT", false), ("NPS Score", false),
     ("Firt (h)", false), ("firt_pct", false), ("Furt (h)", false),
     ("furt_pct", false), ("Reopen", true), ("Q_Ticket", true),
     ("Q_Tickets_Resueltos", true)]

/-- The date-column candidates of `process_auditorias` (line 154). -/
def audDateCandidates : List String :=
  ["Date Time Reference", "Date Time", "ï»¿Date Time"]

/-- `to_date_aud` (lines 160-172), coarsely: an Excel serial above 30000
becomes the corresponding day, a typed date passes, and everything else
fails to parse. -/
def toDateAud : PyVal → PyVal
  | .num q => if 30000 < q ∧ q.den = 1 then .date (daysFromCivil 1899 12 30 + q.num) else .na
  | .date z => .date z
  | _ => .na

/-- `process_auditorias` (lines 152-196): both the date column and
`Total Audit Score` are guarded by empty-frame fallbacks. -/
def process_auditorias (df0 : RawDF) : Except PyErr RawDF := do
  let df := cleanCols df0
  match audDateCandidates.find? (· ∈ df.cols) with
  | none => return ⟨["fecha", "Q_Auditorias", "Nota_Auditorias"], []⟩
  | some colFecha => do
    let fv ← df.colE colFecha
    let df := df.setCol "fecha" (fv.map toDateAud)
    let df : RawDF := ⟨df.cols, df.rows.filter fun r => cellAtP r "fecha" ≠ PyVal.na⟩
    if "Total Audit Score" ∈ df.cols then do
      let sv ← df.colE "Total Audit Score"
      let df := df.setCol "Nota_Auditorias" (sv.map fun v =>
        match toNumericCoerce v with
        | PyVal.num q => PyVal.num q
        | _ => PyVal.num 0)
      let df := df.setCol "Q_Auditorias" (df.rows.map fun _ => PyVal.num 1)
      groupbyAggRaw df "fecha" [("Q_Auditorias", true), ("Nota_Auditorias", false)]
    else
      return ⟨["fecha", "Q_Auditorias", "Nota_Auditorias"], []⟩

/-- `process_offtime` (lines 202-209): the accesses to
`tm_start_local_at` and the segment column are unguarded. -/
def process_offtime (df0 : RawDF) : Except PyErr RawDF := do
  let df := cleanCols df0
  let fv ← df.colE "tm_start_local_at"
  let df := df.setCol "fecha" (fv.map toDatetimeNorm)
  let sv ← df.colE "Segment Arrived to Airport vs Requested"
  let df := df.setCol "OFF_TIME" (sv.map fun v =>
    PyVal.num (if v = PyVal.str "02. A tiempo (0-20 min antes)" then 0 else 1))
  groupbyAggRaw df "fecha" [("OFF_TIME", true)]

/-- `process_duracion` (lines 211-215): unguarded column accesses. -/
def process_duracion (df0 : RawDF) : Except PyErr RawDF := do
  let df := cleanCols df0
  let fv ← df.colE "Start At Local Dt"
  let df := df.setCol "fecha" (fv.map toDatetimeNorm)
  let dv ← df.colE "Duration (Minutes)"
  let df := df.setCol "Duracion_90" (dv.map fun v =>
    PyVal.num (match toNumericCoerce v with
      | PyVal.num q => if 90 < q then 1 else 0
      | _ => 0))
  groupbyAggRaw df "fecha" [("Duracion_90", true)]

/-- `process_duracion30` (lines 217-246): the date column is guarded; the
mixed standard/English date parsing is modelled by the coarse coercion. -/
def process_duracion30 (df0 : RawDF) : Except PyErr RawDF := do
  let df := cleanCols df0
  if "Day of tm_start_local_at" ∈ df.cols then do
    let fv ← df.colE "Day of tm_start_local_at"
    let df := df.setCol "fecha" (fv.map toDatetimeNorm)
    let df : RawDF := ⟨df.cols, df.rows.filter fun r => cellAtP r "fecha" ≠ PyVal.na⟩
    let df := df.setCol "Duracion_30" (df.rows.map fun _ => PyVal.num 1)
    groupbyAggRaw df "fecha" [("Duracion_30", true)]
  else
    return ⟨["fecha", "Duracion_30"], []⟩

/-- `process_inspecciones` (lines 248-268): the access to `Fecha` is
unguarded. -/
def process_inspecciones (df0 : RawDF) : Except PyErr RawDF := do
  let df := cleanCols df0
  let fv ← df.colE "Fecha"
  let df := df.setCol "fecha" (fv.map toDatetimeNorm)
  let df := ["Cumplimiento Exterior", "Cumplimiento Interior",
             "Cumplimiento Conductor"].foldl (fun df c =>
    if c ∈ df.cols then df.setColF c toNumericCoerce else df) df
  let df := df.setCol "Inspecciones_Q" (df.rows.map fun _ => PyVal.num 1)
  let ce ← df.colE "Cumplimiento Exterior"
  let df := df.setCol "Cump_Exterior" (ce.map fun v =>
    PyVal.num (if v = PyVal.num 100 then 1 else 0))
  let df := df.setCol "Incump_Exterior" (ce.map fun v =>
    PyVal.num (match v with | PyVal.num q => if q < 100 then 1 else 0 | _ => 0))
  let ci ← df.colE "Cumplimiento Interior"
  let df := df.setCol "Cump_Interior" (ci.map fun v =>
    PyVal.num (if v = PyVal.num 100 then 1 else 0))
  let df := df.setCol "Incump_Interior" (ci.map fun v =>
    PyVal.num (match v with | PyVal.num q => if q < 100 then 1 else 0 | _ => 0))
  let cc ← df.colE "Cumplimiento Conductor"
  let df := df.setCol "Cump_Conductor" (cc.map fun v =>
    PyVal.num (if v = PyVal.num 100 then 1 else 0))
  let df := df.setCol "Incump_Conductor" (cc.map fun v =>
    PyVal.num (match v with | PyVal.num q => if q < 100 then 1 else 0 | _ => 0))
  groupbyAggRaw df "fecha"
    [("Inspecciones_Q", true), ("Cump_Exterior", true),
     ("Incump_Exterior", true), ("Cump_Interior", true),
     ("Incump_Interior", true), ("Cump_Conductor", true),
     ("Incump_Conductor", true)]

/-- `process_abandonados` (lines 270-274): the access to `Marca temporal`
is unguarded. -/
def process_abandonados (df0 : RawDF) : Except PyErr RawDF := do
  let df := cleanCols df0
  let fv ← df.colE "Marca temporal"
  let df := df.setCol "fecha" (fv.map toDatetimeNorm)
  let df := df.setCol "Abandonados" (df.rows.map fun _ => PyVal.num 1)
  groupbyAggRaw df "fecha" [("Abandonados", true)]

/-- `process_rescates` (lines 276-285): the date column is guarded. -/
def process_rescates (df0 : RawDF) : Except PyErr RawDF := do
  let df := cleanCols df0
  if "Start At Local Dt" ∈ df.cols then do
    let fv ← df.colE "Start At Local Dt"
    let df := df.setCol "fecha" (fv.map toDatetimeNorm)
    let df : RawDF := ⟨df.cols, df.rows.filter fun r => cellAtP r "fecha" ≠ PyVal.na⟩
    let df := df.setCol "Rescates" (df.rows.map fun _ => PyVal.num 1)
    groupbyAggRaw df "fecha" [("Rescates", true)]
  else
    return ⟨["fecha", "Rescates"], []⟩

/-- `process_whatsapp` (lines 287-293): the date column is guarded. -/
def process_whatsapp (df0 : RawDF) : Except PyErr RawDF := do
  let df := cleanCols df0
  if "Created At Local Dt" ∈ df.cols then do
    let fv ← df.colE "Created At Local Dt"
    let df := df.setCol "fecha" (fv.map toDatetimeNorm)
    let df := df.setCol "Q_Tickets_WA" (df.rows.map fun _ => PyVal.num 1)
    groupbyAggRaw df "fecha" [("Q_Tickets_WA", true)]
  else
    return ⟨["fecha", "Q_Tickets_WA"], []⟩

/-! ## Derived schema constants and concrete example inputs

These are bookkeeping values determined by the definitions above: the
column set of the merged wide table (the concatenation of the ten fixed
source schemas), the KPI row set of the pivot, and small concrete input
tables used to evaluate the pipeline at specific dates. -/

/-- The KPI columns of the merged wide table, in pandas merge order. -/
def mergedKpis0 : List String :=
  ventasCols ++ perfCols ++ audCols ++ offCols ++ durCols ++ dur30Cols ++
    inspCols ++ abCols ++ rescCols ++ waCols

/-- The KPI columns of the daily output (merged columns then the five
derived ratio columns) — the row set of the transposed view. -/
def kpisList : List String := mergedKpis0 ++ pctCols

/-- The covered date strictly following `d` in a date list (the successor
in a sorted list). -/
def nextCovered (l : List ℤ) (d : ℤ) : Option ℤ :=
  (l.filter fun x => decide (d < x)).head?

/-- Pair every element of a list with its successor (if any). -/
def withNext : List ℤ → List (ℤ × Option ℤ)
  | [] => []
  | d :: rest => (d, rest.head?) :: withNext rest

/-- 2024-03-03, a Sunday. -/
def dMar3 : ℤ := daysFromCivil 2024 3 3

/-- Ventas daily table covering only 2024-03-03 with three passengers. -/
def exV1 : DTable := [(dMar3, [("Q_pasajeros", some 3)])]

/-- Off-time daily table covering only 2024-03-03 with one incident. -/
def exO1 : DTable := [(dMar3, [("OFF_TIME", some 1)])]

/-- An empty reduced daily table. -/
def exE : DTable := []

/-- The consolidation of the single-day example over 2024-03-03. -/
def outMar3 : GlobalOut :=
  procesarGlobal exV1 exE exE exO1 exE exE exE exE exE exE dMar3 dMar3

/-- Performance daily table with a legitimate zero CSAT on 2024-03-03. -/
def exPcsat : DTable := [(dMar3, [("CSAT", some 0)])]

/-- 2024-03-01 (Friday) and the date-gap example: coverage on the 1st and
the 3rd but not the 2nd. -/
def dMar1 : ℤ := daysFromCivil 2024 3 1

def exOgap : DTable := [(dMar1, [("OFF_TIME", some 1)]),
                        (dMar3, [("OFF_TIME", some 1)])]

/-- Coverage on 2024-01-15 and 2024-02-10 only (a gap across a month
boundary), for the month-column condition. -/
def dJan15 : ℤ := daysFromCivil 2024 1 15

def dFeb10 : ℤ := daysFromCivil 2024 2 10

def exOmonth : DTable := [(dJan15, [("OFF_TIME", some 1)]),
                          (dFeb10, [("OFF_TIME", some 1)])]

/-- Mondays of two Monday-Sunday weeks eleven years apart that receive the
same `semana_humana` label. -/
def dW2023 : ℤ := daysFromCivil 2023 1 2

def dW2034 : ℤ := daysFromCivil 2034 1 2

def exOyears : DTable := [(dW2023, [("OFF_TIME", some 1)]),
                          (dW2034, [("OFF_TIME", some 1)])]

/-- 2025-05-05 and 2025-05-12, Mondays of two consecutive weeks whose
`semana_humana` labels sort anti-chronologically. -/
def dMay5 : ℤ := daysFromCivil 2025 5 5

def dMay12 : ℤ := daysFromCivil 2025 5 12

def exOmay : DTable := [(dMay5, [("OFF_TIME", some 1)]),
                        (dMay12, [("OFF_TIME", some 1)])]

/-- Ten covered days 2024-05-22 … 2024-05-31: one Sunday (the 26th) and a
range ending on the last day of its month. -/
def exOten : DTable :=
  (List.range 10).map fun i =>
    (daysFromCivil 2024 5 (22 + i), [("OFF_TIME", some 1)])

def dMay22 : ℤ := daysFromCivil 2024 5 22

def dMay31 : ℤ := daysFromCivil 2024 5 31

def dJan1 : ℤ := daysFromCivil 2024 1 1

def dFeb28 : ℤ := daysFromCivil 2024 2 28

/-- The first daily row of an output (a default dummy when empty). -/
def diarioHead (g : GlobalOut) : ℤ × Cells := (g.diario.head?).getD (0, [])

/-! ## Lemmas: row updates and column loops -/

theorem lookupV_setV (cs : Cells) (c : String) (v : Option ℚ) (c' : String) :
    lookupV (setV cs c v) c' = if c = c' then some v else lookupV cs c' := by
  induction cs with
  | nil => simp [setV, lookupV]
  | cons hd t ih =>
      obtain ⟨c0, v0⟩ := hd
      by_cases h : c0 = c
      · subst h
        simp only [setV, if_pos rfl, lookupV]
        by_cases h2 : c0 = c'
        · subst h2; simp
        · simp [h2]
      · simp only [setV, if_neg h, lookupV]
        by_cases h2 : c0 = c'
        · subst h2
          rw [if_neg (show ¬c = c0 from fun h3 => h h3.symm)]
          simp
        · simp only [if_neg h2]
          exact ih

theorem getV_setV (cs : Cells) (c : String) (v : Option ℚ) (c' : String) :
    getV (setV cs c v) c' = if c = c' then v else getV cs c' := by
  simp [getV, lookupV_setV]
  by_cases h : c = c' <;> simp [h]

theorem keys_setV (cs : Cells) (c : String) (v : Option ℚ) :
    (setV cs c v).map Prod.fst =
      if (lookupV cs c).isSome then cs.map Prod.fst
      else cs.map Prod.fst ++ [c] := by
  induction cs with
  | nil => simp [setV, lookupV]
  | cons hd t ih =>
      obtain ⟨c0, v0⟩ := hd
      by_cases h : c0 = c
      · subst h; simp [setV, lookupV]
      · simp [setV, h, lookupV, ih]
        by_cases h2 : (lookupV t c).isSome <;> simp [h2]

theorem lookupV_isSome_iff (cs : Cells) (c : String) :
    (lookupV cs c).isSome ↔ c ∈ cs.map Prod.fst := by
  induction cs with
  | nil => simp [lookupV]
  | cons hd t ih =>
      obtain ⟨c0, v0⟩ := hd
      by_cases h : c0 = c
      · subst h; simp [lookupV]
      · simp [lookupV, h, ih, Ne.symm h]

theorem lookupV_keyFold_not_mem (g : String → Option (Option ℚ) → Bool)
    (h : String → Option (Option ℚ) → Option ℚ) (l : List String)
    (cs : Cells) (c : String) (hc : c ∉ l) :
    lookupV (keyFold g h l cs) c = lookupV cs c := by
  induction l generalizing cs with
  | nil => simp [keyFold]
  | cons a t ih =>
      have hca : c ≠ a := fun e => hc (e ▸ List.mem_cons_self a t)
      have hct : c ∉ t := fun e => hc (List.mem_cons_of_mem a e)
      simp only [keyFold, List.foldl_cons]
      rw [show (List.foldl _ _ t : Cells) = keyFold g h t
            (if g a (lookupV cs a) then setV cs a (h a (lookupV cs a)) else cs)
          from rfl]
      rw [ih _ hct]
      by_cases hg : g a (lookupV cs a)
      · simp only [if_pos hg, lookupV_setV,
          if_neg (show ¬a = c from fun e => hca e.symm)]
      · simp only [if_neg hg]

theorem lookupV_keyFold_mem (g : String → Option (Option ℚ) → Bool)
    (h : String → Option (Option ℚ) → Option ℚ) (l : List String)
    (cs : Cells) (c : String) (hl : l.Nodup) (hc : c ∈ l) :
    lookupV (keyFold g h l cs) c =
      if g c (lookupV cs c) then some (h c (lookupV cs c))
      else lookupV cs c := by
  induction l generalizing cs with
  | nil => cases hc
  | cons a t ih =>
      simp only [keyFold, List.foldl_cons]
      rw [show (List.foldl _ _ t : Cells) = keyFold g h t
            (if g a (lookupV cs a) then setV cs a (h a (lookupV cs a)) else cs)
          from rfl]
      rcases List.mem_cons.mp hc with rfl | hct
      · have hat : c ∉ t := (List.nodup_cons.mp hl).1
        rw [lookupV_keyFold_not_mem _ _ _ _ _ hat]
        by_cases hg : g c (lookupV cs c)
        · simp [if_pos hg, lookupV_setV]
        · simp [if_neg hg]
      · have hca : c ≠ a := fun e => (List.nodup_cons.mp hl).1 (e ▸ hct)
        have htn : t.Nodup := (List.nodup_cons.mp hl).2
        by_cases hg : g a (lookupV cs a)
        · simp only [if_pos hg]
          rw [ih _ htn hct]
          simp only [lookupV_setV,
            if_neg (show ¬a = c from fun e => hca e.symm)]
        · simp only [if_neg hg]
          exact ih _ htn hct

theorem keys_keyFold (g : String → Option (Option ℚ) → Bool)
    (h : String → Option (Option ℚ) → Option ℚ) (l : List String)
    (cs : Cells) (hg : ∀ c o, g c o → o.isSome) :
    (keyFold g h l cs).map Prod.fst = cs.map Prod.fst := by
  induction l generalizing cs with
  | nil => simp [keyFold]
  | cons a t ih =>
      simp only [keyFold, List.foldl_cons]
      rw [show (List.foldl _ _ t : Cells) = keyFold g h t
            (if g a (lookupV cs a) then setV cs a (h a (lookupV cs a)) else cs)
          from rfl]
      rw [ih]
      by_cases hga : g a (lookupV cs a)
      · simp only [if_pos hga, keys_setV, if_pos (hg _ _ hga)]
      · simp only [if_neg hga]

/-! ## Lemmas: the fill/derive stages -/

theorem lookupV_sumFill_not_mem (cs : Cells) (c : String)
    (hc : c ∉ sum_cols) : lookupV (sumFill cs) c = lookupV cs c :=
  lookupV_keyFold_not_mem _ _ _ _ _ hc

theorem getV_sumFill_mem (cs : Cells) (c : String) (hc : c ∈ sum_cols)
    (hp : (lookupV cs c).isSome) :
    getV (sumFill cs) c = some ((getV cs c).getD 0) := by
  have hn : sum_cols.Nodup := by decide
  simp only [getV, sumFill] at *
  rw [lookupV_keyFold_mem _ _ _ _ _ hn hc]
  simp only [if_pos hp]
  rcases Option.isSome_iff_exists.mp hp with ⟨o, ho⟩
  simp [ho]

theorem lookupV_meanRepl_not_mem (cs : Cells) (c : String)
    (hc : c ∉ mean_cols) : lookupV (meanRepl cs) c = lookupV cs c :=
  lookupV_keyFold_not_mem _ _ _ _ _ hc

theorem getV_meanRepl_mem (cs : Cells) (c : String) (hc : c ∈ mean_cols)
    (hn : c ≠ "Nota_Auditorias") (hp : (lookupV cs c).isSome) :
    getV (meanRepl cs) c = if getV cs c = some 0 then none else getV cs c := by
  have hnd : mean_cols.Nodup := by decide
  simp only [getV, meanRepl]
  rw [lookupV_keyFold_mem _ _ _ _ _ hnd hc]
  rcases Option.isSome_iff_exists.mp hp with ⟨o, ho⟩
  simp [ho, hp, hn]

theorem getV_meanRepl_nota (cs : Cells) :
    getV (meanRepl cs) "Nota_Auditorias" = getV cs "Nota_Auditorias" := by
  have hnd : mean_cols.Nodup := by decide
  have hc : "Nota_Auditorias" ∈ mean_cols := by decide
  simp only [getV, meanRepl]
  rw [lookupV_keyFold_mem _ _ _ _ _ hnd hc]
  simp

/-! ## Lemmas: the ratio-derivation loop -/

theorem getV_assignPcts_not_pct (cs : Cells) (c : String)
    (hc : ∀ op ∈ operativos, op ++ "_pct_pasajeros" ≠ c) :
    getV (assignPcts cs) c = getV cs c := by
  simp only [assignPcts, operativos, List.foldl_cons, List.foldl_nil]
  rw [getV_setV, if_neg (hc "Rescates" (by decide)),
      getV_setV, if_neg (hc "Abandonados" (by decide)),
      getV_setV, if_neg (hc "Duracion_30" (by decide)),
      getV_setV, if_neg (hc "Duracion_90" (by decide)),
      getV_setV, if_neg (hc "OFF_TIME" (by decide))]

theorem getV_assignPcts_pct (cs : Cells) (op : String)
    (hop : op ∈ operativos) :
    getV (assignPcts cs) (op ++ "_pct_pasajeros") =
      round4O (safePct (getV cs op) (getV cs "Q_pasajeros")) := by
  have h5 : op = "OFF_TIME" ∨ op = "Duracion_90" ∨ op = "Duracion_30" ∨
      op = "Abandonados" ∨ op = "Rescates" := by
    simpa [operativos] using hop
  rcases h5 with rfl | rfl | rfl | rfl | rfl <;>
    simp [assignPcts, operativos, getV_setV]

/-! ## Lemmas: sorting and grouping -/

theorem mem_insLe {α : Type} (le : α → α → Bool) (x a : α) (l : List α) :
    a ∈ insLe le x l ↔ a = x ∨ a ∈ l := by
  induction l with
  | nil => simp [insLe]
  | cons y t ih =>
      by_cases h : le x y
      · simp [insLe, h]
      · simp [insLe, h, ih]
        tauto

theorem perm_insLe {α : Type} (le : α → α → Bool) (x : α) (l : List α) :
    (insLe le x l).Perm (x :: l) := by
  induction l with
  | nil => simp [insLe]
  | cons y t ih =>
      by_cases h : le x y
      · simp [insLe, h]
      · simp only [insLe, if_neg h]
        exact ((ih.cons y).trans (List.Perm.swap x y t))

theorem perm_sortByLe {α : Type} (le : α → α → Bool) (l : List α) :
    (sortByLe le l).Perm l := by
  induction l with
  | nil => simp [sortByLe]
  | cons x t ih => exact (perm_insLe le x (sortByLe le t)).trans (ih.cons x)

theorem mem_sortByLe {α : Type} (le : α → α → Bool) (a : α) (l : List α) :
    a ∈ sortByLe le l ↔ a ∈ l := (perm_sortByLe le l).mem_iff

theorem pairwise_insLe {α : Type} (le : α → α → Bool)
    (htot : ∀ a b, le a b = true ∨ le b a = true)
    (htr : ∀ a b c, le a b = true → le b c = true → le a c = true)
    (x : α) (l : List α)
    (hl : List.Pairwise (fun a b => le a b = true) l) :
    List.Pairwise (fun a b => le a b = true) (insLe le x l) := by
  induction l with
  | nil => simp [insLe]
  | cons y t ih =>
      rcases List.pairwise_cons.mp hl with ⟨hy, ht⟩
      by_cases h : le x y = true
      · simp only [insLe, if_pos h]
        refine List.pairwise_cons.mpr ⟨?_, hl⟩
        intro b hb
        rcases List.mem_cons.mp hb with rfl | hbt
        · exact h
        · exact htr x y b h (hy b hbt)
      · simp only [insLe, if_neg h]
        refine List.pairwise_cons.mpr ⟨?_, ih ht⟩
        intro b hb
        rcases (mem_insLe le x b t).mp hb with hbx | hbt
        · subst hbx
          rcases htot b y with hxy | hyx
          · exact absurd hxy h
          · exact hyx
        · exact hy b hbt

theorem pairwise_sortByLe {α : Type} (le : α → α → Bool)
    (htot : ∀ a b, le a b = true ∨ le b a = true)
    (htr : ∀ a b c, le a b = true → le b c = true → le a c = true)
    (l : List α) :
    List.Pairwise (fun a b => le a b = true) (sortByLe le l) := by
  induction l with
  | nil => simp [sortByLe]
  | cons x t ih => exact pairwise_insLe le htot htr x _ ih

theorem intLe_total (a b : ℤ) : intLe a b = true ∨ intLe b a = true := by
  simp [intLe]
  exact le_total a b

theorem intLe_trans (a b c : ℤ) (h1 : intLe a b = true)
    (h2 : intLe b c = true) : intLe a c = true := by
  simp [intLe] at *
  exact le_trans h1 h2

theorem charListLe_total (s t : List Char) :
    charListLe s t = true ∨ charListLe t s = true := by
  induction s generalizing t with
  | nil => left; simp [charListLe]
  | cons a s ih =>
      cases t with
      | nil => right; simp [charListLe]
      | cons b t =>
          by_cases hab : a < b
          · left; simp [charListLe, hab]
          · by_cases hba : b < a
            · right; simp [charListLe, hba]
            · rcases ih t with h | h
              · left; simp [charListLe, hab, hba, h]
              · right; simp [charListLe, hab, hba, h]

theorem charListLe_trans (s t u : List Char) (h1 : charListLe s t = true)
    (h2 : charListLe t u = true) : charListLe s u = true := by
  induction s generalizing t u with
  | nil => simp [charListLe]
  | cons a s ih =>
      cases t with
      | nil => simp [charListLe] at h1
      | cons b t =>
          cases u with
          | nil => simp [charListLe] at h2
          | cons c u =>
              simp only [charListLe] at h1 h2 ⊢
              by_cases hab : a < b
              · by_cases hbc : b < c
                · simp [lt_trans hab hbc]
                · by_cases hcb : c < b
                  · simp [hbc, hcb] at h2
                  · have hbce : b = c := le_antisymm (not_lt.mp hcb) (not_lt.mp hbc)
                    subst hbce
                    simp [hab]
              · by_cases hba : b < a
                · simp [hab, hba] at h1
                · have habe : a = b := le_antisymm (not_lt.mp hba) (not_lt.mp hab)
                  subst habe
                  by_cases hac : a < c
                  · simp [hac]
                  · by_cases hca : c < a
                    · simp [hac, hca] at h2
                    · simp only [if_neg hac, if_neg hca]
                      simp only [if_neg hab, if_neg hba] at h1
                      simp only [if_neg hac, if_neg hca] at h2
                      exact ih t u h1 h2

theorem strLe_total (s t : String) : strLe s t = true ∨ strLe t s = true :=
  charListLe_total s.data t.data

theorem strLe_trans (s t u : String) (h1 : strLe s t = true)
    (h2 : strLe t u = true) : strLe s u = true :=
  charListLe_trans _ _ _ h1 h2

theorem sortedLabels_pairwise (l : List String) :
    List.Pairwise (fun a b => strLe a b = true) (sortedLabels l) :=
  pairwise_sortByLe strLe strLe_total strLe_trans l.dedup

theorem mem_sortedLabels (a : String) (l : List String) :
    a ∈ sortedLabels l ↔ a ∈ l := by
  rw [sortedLabels, mem_sortByLe]
  exact List.mem_dedup

theorem sortedDates_nodup (l : List ℤ) : (sortedDates l).Nodup :=
  ((perm_sortByLe intLe l.dedup).nodup_iff).mpr (List.nodup_dedup l)

theorem mem_sortedDates (a : ℤ) (l : List ℤ) :
    a ∈ sortedDates l ↔ a ∈ l := by
  rw [sortedDates, mem_sortByLe]
  exact List.mem_dedup

theorem sortedDates_pairwise_lt (l : List ℤ) :
    List.Pairwise (· < ·) (sortedDates l) := by
  have h1 := pairwise_sortByLe intLe intLe_total intLe_trans l.dedup
  have h2 : List.Pairwise (· ≠ ·) (sortedDates l) := sortedDates_nodup l
  refine (h1.and h2).imp ?_
  intro a b hab
  have : a ≤ b := by simpa [intLe] using hab.1
  exact lt_of_le_of_ne this hab.2

/-! ## Lemmas: merge, aggregation, grouping -/

theorem keys_mergedCells (srcs : List (List String × DTable)) (t : ℤ) :
    (mergedCells srcs t).map Prod.fst = srcs.flatMap Prod.fst := by
  induction srcs with
  | nil => simp [mergedCells]
  | cons s r ih =>
      simp only [mergedCells, List.flatMap_cons, List.map_append] at *
      rw [ih]
      congr 1
      cases rowAt s.2 t <;> simp [List.map_map, Function.comp_def]

theorem keys_mergedCells_srcs (v p a o d d30 insp ab resc wa : DTable)
    (t : ℤ) :
    (mergedCells (sourceList v p a o d d30 insp ab resc wa) t).map Prod.fst =
      mergedKpis0 := by
  rw [keys_mergedCells]
  rfl

theorem mem_mergeFilterSort (srcs : List (List String × DTable))
    (date_from date_to : ℤ) (r : ℤ × Cells)
    (hr : r ∈ mergeFilterSort srcs date_from date_to) :
    r.2 = mergedCells srcs r.1 ∧ date_from ≤ r.1 ∧ r.1 ≤ date_to := by
  simp only [mergeFilterSort, List.mem_map, List.mem_filter] at hr
  obtain ⟨d, ⟨_, hd2⟩, rfl⟩ := hr
  simp only [decide_eq_true_eq] at hd2
  exact ⟨rfl, hd2⟩

theorem keys_setV_not_mem (cs : Cells) (c : String) (v : Option ℚ)
    (h : c ∉ cs.map Prod.fst) :
    (setV cs c v).map Prod.fst = cs.map Prod.fst ++ [c] := by
  rw [keys_setV, if_neg]
  simpa [lookupV_isSome_iff] using h

theorem keys_sumFill (cs : Cells) :
    (sumFill cs).map Prod.fst = cs.map Prod.fst :=
  keys_keyFold _ _ _ _ (fun _ _ hg => hg)

theorem keys_meanRepl (cs : Cells) :
    (meanRepl cs).map Prod.fst = cs.map Prod.fst :=
  keys_keyFold _ _ _ _ (fun c _o hg => by
    simp only [Bool.and_eq_true] at hg
    exact hg.1)

theorem keys_pctFold (ops : List String) (cs : Cells)
    (h : ∀ op ∈ ops, op ++ "_pct_pasajeros" ∉ cs.map Prod.fst)
    (hn : (ops.map (· ++ "_pct_pasajeros")).Nodup) :
    (ops.foldl (fun cs op =>
      setV cs (op ++ "_pct_pasajeros")
        (round4O (safePct (getV cs op) (getV cs "Q_pasajeros")))) cs).map
      Prod.fst = cs.map Prod.fst ++ ops.map (· ++ "_pct_pasajeros") := by
  induction ops generalizing cs with
  | nil => simp
  | cons a t ih =>
      simp only [List.foldl_cons, List.map_cons]
      rw [ih]
      · rw [keys_setV_not_mem _ _ _ (h a (List.mem_cons_self a t))]
        simp
      · intro op hop
        rw [keys_setV_not_mem _ _ _ (h a (List.mem_cons_self a t))]
        simp only [List.mem_append, List.mem_singleton]
        rintro (hmem | heq)
        · exact h op (List.mem_cons_of_mem a hop) hmem
        · rcases List.nodup_cons.mp hn with ⟨ha, _⟩
          refine ha (show a ++ "_pct_pasajeros" ∈ _ from ?_)
          rw [← heq]
          exact List.mem_map_of_mem (· ++ "_pct_pasajeros") hop
      · exact (List.nodup_cons.mp hn).2

theorem keys_assignPcts (cs : Cells)
    (h : ∀ op ∈ operativos, op ++ "_pct_pasajeros" ∉ cs.map Prod.fst) :
    (assignPcts cs).map Prod.fst = cs.map Prod.fst ++ pctCols :=
  keys_pctFold operativos cs h (by decide)

theorem keys_stages (cs : Cells) (h : cs.map Prod.fst = mergedKpis0) :
    (assignPcts (meanRepl (sumFill cs))).map Prod.fst = kpisList := by
  have h1 : (meanRepl (sumFill cs)).map Prod.fst = mergedKpis0 := by
    rw [keys_meanRepl, keys_sumFill, h]
  rw [keys_assignPcts _ (fun op hop => by
        rw [h1]
        have h5 : op = "OFF_TIME" ∨ op = "Duracion_90" ∨ op = "Duracion_30" ∨
            op = "Abandonados" ∨ op = "Rescates" := by simpa [operativos] using hop
        rcases h5 with rfl | rfl | rfl | rfl | rfl <;> decide),
      h1]
  rfl

theorem lookupV_mapBuild (f : String → Option ℚ) (l : List String)
    (hl : l.Nodup) (c : String) (hc : c ∈ l) :
    lookupV (l.map fun k => (k, f k)) c = some (f c) := by
  induction l with
  | nil => cases hc
  | cons a t ih =>
      rcases List.nodup_cons.mp hl with ⟨hat, htn⟩
      simp only [List.map_cons, lookupV]
      rcases List.mem_cons.mp hc with rfl | hct
      · simp
      · rw [if_neg (show ¬a = c from fun e => hat (e ▸ hct)), ih htn hct]

theorem getV_aggCells (g : List Cells) (c : String) (hc : c ∈ aggKeys) :
    getV (aggCells g) c =
      if c ∈ sum_cols then some (aggSumQ g c) else aggMeanQ g c := by
  have hn : aggKeys.Nodup := by decide
  simp only [getV, aggCells]
  rw [lookupV_mapBuild _ _ hn _ hc]
  by_cases h : c ∈ sum_cols <;> simp [h]

theorem groupAgg_labels (key : ℤ → String) (rows : List (ℤ × Cells)) :
    (groupAgg key rows).map Prod.fst =
      sortedLabels (rows.map fun r => key r.1) := by
  simp [groupAgg, List.map_map, Function.comp_def]

theorem mem_groupAgg (key : ℤ → String) (rows : List (ℤ × Cells))
    (L : String) (cs : Cells) (h : (L, cs) ∈ groupAgg key rows) :
    cs = assignPcts (aggCells
      ((rows.filter fun r => key r.1 = L).map (·.2))) := by
  simp only [groupAgg, List.mem_map] at h
  obtain ⟨L', _, hL⟩ := h
  cases hL
  rfl

theorem dedup_const {α β : Type} [DecidableEq α] (L : α) (l : List β)
    (h : l ≠ []) : (l.map fun _ => L).dedup = [L] := by
  induction l with
  | nil => cases h rfl
  | cons a t ih =>
      cases t with
      | nil => simp
      | cons b t2 =>
          rw [List.map_cons, List.dedup_cons_of_mem (by simp)]
          exact ih (by simp)

/-! ## Lemmas: the constant-key (period) grouping and output structure -/

theorem sortedLabels_const (L : String) (l : List (ℤ × Cells)) (h : l ≠ []) :
    sortedLabels (l.map fun _ => L) = [L] := by
  rw [sortedLabels, dedup_const L l h]
  rfl

theorem groupAgg_const (L : String) (rows : List (ℤ × Cells))
    (h : rows ≠ []) :
    groupAgg (fun _ => L) rows =
      [(L, assignPcts (aggCells (rows.map (·.2))))] := by
  unfold groupAgg
  rw [show (rows.map fun r => (fun _ : ℤ => L) r.1) = rows.map fun _ => L
      from rfl]
  rw [sortedLabels_const L rows h]
  simp

theorem procesarGlobal_diario (v p a o d d30 insp ab resc wa : DTable)
    (date_from date_to : ℤ) :
    (procesarGlobal v p a o d d30 insp ab resc wa date_from date_to).diario =
      (mergeFilterSort (sourceList v p a o d d30 insp ab resc wa)
        date_from date_to).map
        (fun r => (r.1, assignPcts (meanRepl (sumFill r.2)))) := rfl

theorem procesarGlobal_semanal (v p a o d d30 insp ab resc wa : DTable)
    (date_from date_to : ℤ) :
    (procesarGlobal v p a o d d30 insp ab resc wa date_from date_to).semanal =
      groupAgg semanaHumana
        (procesarGlobal v p a o d d30 insp ab resc wa date_from
          date_to).diario := rfl

theorem procesarGlobal_periodo (v p a o d d30 insp ab resc wa : DTable)
    (date_from date_to : ℤ) :
    (procesarGlobal v p a o d d30 insp ab resc wa date_from date_to).periodo =
      groupAgg (fun _ => periodLabel date_from date_to)
        (procesarGlobal v p a o d d30 insp ab resc wa date_from
          date_to).diario := rfl

theorem procesarGlobal_pivot (v p a o d d30 insp ab resc wa : DTable)
    (date_from date_to : ℤ) :
    (procesarGlobal v p a o d d30 insp ab resc wa date_from date_to).pivot =
      buildTransposedView
        (procesarGlobal v p a o d d30 insp ab resc wa date_from
          date_to).diario := rfl

/-! ## Lemmas: the pivot column walk -/

theorem ptLoop_mem_day (df : List (ℤ × Cells)) (kpis : List String)
    (l : List ℤ) (d : ℤ) (hd : d ∈ l) :
    (fmtDate d, dayVals df kpis d) ∈ ptLoop df kpis l := by
  induction l with
  | nil => cases hd
  | cons a r ih =>
      rcases List.mem_cons.mp hd with rfl | hdr
      · exact List.mem_cons_self _ _
      · exact List.mem_cons_of_mem _ (List.mem_append_right _ (ih hdr))

theorem ptLoop_mem_week (df : List (ℤ × Cells)) (kpis : List String)
    (l : List ℤ) (d : ℤ) (hd : d ∈ l) (hw : weekdayZ d = 6) :
    (weekLabelZ (d - 6) d, spanVals kpis (spanCells df (d - 6) d)) ∈
      ptLoop df kpis l := by
  induction l with
  | nil => cases hd
  | cons a r ih =>
      rcases List.mem_cons.mp hd with rfl | hdr
      · refine List.mem_cons_of_mem _
          (List.mem_append_left _ (List.mem_append_left _ ?_))
        simp [hw]
      · exact List.mem_cons_of_mem _ (List.mem_append_right _ (ih hdr))

theorem nextCovered_cons_head (d : ℤ) (r : List ℤ)
    (h : List.Pairwise (· < ·) (d :: r)) :
    nextCovered (d :: r) d = r.head? := by
  have hall : List.filter (fun x => decide (d < x)) r = r := by
    rw [List.filter_eq_self]
    intro x hx
    simp only [decide_eq_true_eq]
    exact (List.pairwise_cons.mp h).1 x hx
  simp only [nextCovered, List.filter_cons]
  rw [show (decide (d < d)) = false by simp, hall]
  simp

theorem nextCovered_cons_mem (a d : ℤ) (l : List ℤ)
    (h : List.Pairwise (· < ·) (a :: l)) (hd : d ∈ l) :
    nextCovered (a :: l) d = nextCovered l d := by
  have had : a < d := (List.pairwise_cons.mp h).1 d hd
  simp only [nextCovered, List.filter_cons]
  rw [show (decide (d < a)) = false by
    simp only [decide_eq_false_iff_not]
    exact fun hda => absurd had (lt_asymm hda)]
  simp

theorem ptLoop_mem_month (df : List (ℤ × Cells)) (kpis : List String)
    (l : List ℤ) (d : ℤ) (hsort : List.Pairwise (· < ·) l) (hd : d ∈ l)
    (hc : monthCond d (nextCovered l d) = true) :
    (monthLabelZ d, spanVals kpis (spanCells df (monthStartZ d) d)) ∈
      ptLoop df kpis l := by
  induction l with
  | nil => cases hd
  | cons a r ih =>
      rcases List.mem_cons.mp hd with rfl | hdr
      · rw [nextCovered_cons_head d r hsort] at hc
        refine List.mem_cons_of_mem _
          (List.mem_append_left _ (List.mem_append_right _ ?_))
        simp [hc]
      · rw [nextCovered_cons_mem a d r hsort hdr] at hc
        exact List.mem_cons_of_mem _ (List.mem_append_right _
          (ih (List.pairwise_cons.mp hsort).2 hdr hc))

theorem ptLoop_sound (df : List (ℤ × Cells)) (kpis : List String)
    (l : List ℤ) (hsort : List.Pairwise (· < ·) l)
    (lv : String × List (Option ℚ)) (hlv : lv ∈ ptLoop df kpis l) :
    (∃ d ∈ l, lv = (fmtDate d, dayVals df kpis d)) ∨
    (∃ d ∈ l, weekdayZ d = 6 ∧
      lv = (weekLabelZ (d - 6) d, spanVals kpis (spanCells df (d - 6) d))) ∨
    (∃ d ∈ l, monthCond d (nextCovered l d) = true ∧
      lv = (monthLabelZ d,
        spanVals kpis (spanCells df (monthStartZ d) d))) := by
  induction l with
  | nil => cases hlv
  | cons a r ih =>
      have hpr : List.Pairwise (· < ·) r := (List.pairwise_cons.mp hsort).2
      rcases List.mem_cons.mp hlv with rfl | hrest
      · exact Or.inl ⟨a, List.mem_cons_self a r, rfl⟩
      · rcases List.mem_append.mp hrest with hwm | htail
        · rcases List.mem_append.mp hwm with hweek | hmonth
          · by_cases hw : weekdayZ a = 6
            · rw [if_pos hw] at hweek
              rcases List.mem_singleton.mp hweek with rfl
              exact Or.inr (Or.inl ⟨a, List.mem_cons_self a r, hw, rfl⟩)
            · rw [if_neg hw] at hweek
              cases hweek
          · by_cases hm : monthCond a r.head? = true
            · rw [if_pos hm] at hmonth
              rcases List.mem_singleton.mp hmonth with rfl
              refine Or.inr (Or.inr ⟨a, List.mem_cons_self a r, ?_, rfl⟩)
              rw [nextCovered_cons_head a r hsort]
              exact hm
            · rw [if_neg hm] at hmonth
              cases hmonth
        · rcases ih hpr htail with ⟨d, hd, he⟩ | ⟨d, hd, hw, he⟩ |
            ⟨d, hd, hm, he⟩
          · exact Or.inl ⟨d, List.mem_cons_of_mem a hd, he⟩
          · exact Or.inr (Or.inl ⟨d, List.mem_cons_of_mem a hd, hw, he⟩)
          · refine Or.inr (Or.inr ⟨d, List.mem_cons_of_mem a hd, ?_, he⟩)
            rw [nextCovered_cons_mem a d r hsort hd]
            exact hm

theorem ptLoop_labels (df : List (ℤ × Cells)) (kpis : List String)
    (l : List ℤ) :
    (ptLoop df kpis l).map Prod.fst = (withNext l).flatMap (fun dn =>
      fmtDate dn.1 ::
        ((if weekdayZ dn.1 = 6 then [weekLabelZ (dn.1 - 6) dn.1] else []) ++
         (if monthCond dn.1 dn.2 then [monthLabelZ dn.1] else []))) := by
  induction l with
  | nil => rfl
  | cons a r ih =>
      by_cases hw : weekdayZ a = 6 <;>
        by_cases hm : monthCond a r.head? = true <;>
          simp [ptLoop, withNext, hw, hm, ih]

theorem zip_map_self (l : List String) (f : String → Option ℚ) :
    l.zip (l.map f) = l.map fun a => (a, f a) := by
  induction l with
  | nil => rfl
  | cons a t ih => simp [ih]

theorem rowOf_map (names : List String) (f : String → Option ℚ)
    (hn : names.Nodup) (k : String) (hk : k ∈ names) :
    rowOf names (names.map f) k = f k := by
  rw [rowOf, zip_map_self]
  simp only [getV]
  rw [lookupV_mapBuild f names hn k hk]
  rfl

theorem rowOf_reVals (kpis newIdx : List String) (vals : List (Option ℚ))
    (k : String) (hn : newIdx.Nodup) (hk : k ∈ newIdx) :
    rowOf newIdx (reVals kpis newIdx vals) k = rowOf kpis vals k :=
  rowOf_map newIdx _ hn k hk

theorem rowOf_spanVals (kpis : List String) (sub : List Cells) (k : String)
    (hn : kpis.Nodup) (hk : k ∈ kpis) :
    rowOf kpis (spanVals kpis sub) k =
      if k ∈ pctCols then
        recomputePct sub (strReplace k "_pct_pasajeros" "")
      else if k ∈ sum_cols then some (aggSumQ sub k)
      else if k ∈ mean_cols then aggMeanQ sub k
      else none :=
  rowOf_map kpis _ hn k hk

/-! ## Lemmas: the ratio identity at each resolution -/

theorem operativos_cases (op : String) (hop : op ∈ operativos) :
    op = "OFF_TIME" ∨ op = "Duracion_90" ∨ op = "Duracion_30" ∨
    op = "Abandonados" ∨ op = "Rescates" := by
  simpa [operativos] using hop

theorem diario_row_shape (v p a o d d30 insp ab resc wa : DTable)
    (date_from date_to : ℤ) (r : ℤ × Cells)
    (hr : r ∈ (procesarGlobal v p a o d d30 insp ab resc wa date_from
      date_to).diario) :
    r.2 = assignPcts (meanRepl (sumFill
      (mergedCells (sourceList v p a o d d30 insp ab resc wa) r.1))) := by
  rw [procesarGlobal_diario] at hr
  rcases List.mem_map.mp hr with ⟨r0, hr0, rfl⟩
  simp only
  rw [(mem_mergeFilterSort _ _ _ _ hr0).1]

theorem diario_row_keys (v p a o d d30 insp ab resc wa : DTable)
    (date_from date_to : ℤ) (r : ℤ × Cells)
    (hr : r ∈ (procesarGlobal v p a o d d30 insp ab resc wa date_from
      date_to).diario) :
    r.2.map Prod.fst = kpisList := by
  rw [diario_row_shape v p a o d d30 insp ab resc wa date_from date_to r hr]
  exact keys_stages _ (keys_mergedCells_srcs v p a o d d30 insp ab resc wa r.1)

theorem not_pct_name_of_op (c : String)
    (hc : c ∈ operativos ∨ c = "Q_pasajeros") :
    ∀ op ∈ operativos, op ++ "_pct_pasajeros" ≠ c := by
  intro op hop
  rcases operativos_cases op hop with rfl | rfl | rfl | rfl | rfl <;>
    (rcases hc with hc' | rfl
     · rcases operativos_cases _ hc' with rfl | rfl | rfl | rfl | rfl <;> decide
     · decide)

theorem diario_pct_eq (v p a o d d30 insp ab resc wa : DTable)
    (date_from date_to : ℤ) (r : ℤ × Cells)
    (hr : r ∈ (procesarGlobal v p a o d d30 insp ab resc wa date_from
      date_to).diario) (op : String) (hop : op ∈ operativos) :
    getV r.2 (op ++ "_pct_pasajeros") =
      round4O (safePct (getV r.2 op) (getV r.2 "Q_pasajeros")) := by
  have hs := diario_row_shape v p a o d d30 insp ab resc wa date_from
    date_to r hr
  rw [hs, getV_assignPcts_pct _ _ hop,
      getV_assignPcts_not_pct _ op (not_pct_name_of_op op (Or.inl hop)),
      getV_assignPcts_not_pct _ "Q_pasajeros"
        (not_pct_name_of_op _ (Or.inr rfl))]

theorem op_mem_aggKeys (op : String) (hop : op ∈ operativos) :
    op ∈ aggKeys := by
  rcases operativos_cases op hop with rfl | rfl | rfl | rfl | rfl <;> decide

theorem op_mem_sum_cols (op : String) (hop : op ∈ operativos) :
    op ∈ sum_cols := by
  rcases operativos_cases op hop with rfl | rfl | rfl | rfl | rfl <;> decide

theorem semanal_pct_eq (v p a o d d30 insp ab resc wa : DTable)
    (date_from date_to : ℤ) (L : String) (cs : Cells)
    (h : (L, cs) ∈ (procesarGlobal v p a o d d30 insp ab resc wa date_from
      date_to).semanal) (op : String) (hop : op ∈ operativos) :
    getV cs (op ++ "_pct_pasajeros") =
      round4O (safePct
        (some (aggSumQ (((procesarGlobal v p a o d d30 insp ab resc wa
          date_from date_to).diario.filter fun r =>
            semanaHumana r.1 = L).map (·.2)) op))
        (some (aggSumQ (((procesarGlobal v p a o d d30 insp ab resc wa
          date_from date_to).diario.filter fun r =>
            semanaHumana r.1 = L).map (·.2)) "Q_pasajeros"))) := by
  rw [procesarGlobal_semanal] at h
  rw [mem_groupAgg _ _ _ _ h, getV_assignPcts_pct _ _ hop,
      getV_aggCells _ _ (op_mem_aggKeys op hop),
      if_pos (op_mem_sum_cols op hop),
      getV_aggCells _ "Q_pasajeros" (by decide), if_pos (by decide)]

theorem periodo_singleton (v p a o d d30 insp ab resc wa : DTable)
    (date_from date_to : ℤ)
    (h : (procesarGlobal v p a o d d30 insp ab resc wa date_from
      date_to).diario ≠ []) :
    (procesarGlobal v p a o d d30 insp ab resc wa date_from
      date_to).periodo =
      [(periodLabel date_from date_to,
        assignPcts (aggCells ((procesarGlobal v p a o d d30 insp ab resc wa
          date_from date_to).diario.map (·.2))))] := by
  rw [procesarGlobal_periodo, groupAgg_const _ _ h]

theorem periodo_pct_eq (v p a o d d30 insp ab resc wa : DTable)
    (date_from date_to : ℤ) (cs : Cells)
    (h : (periodLabel date_from date_to, cs) ∈
      (procesarGlobal v p a o d d30 insp ab resc wa date_from
        date_to).periodo) (op : String) (hop : op ∈ operativos) :
    getV cs (op ++ "_pct_pasajeros") =
      round4O (safePct
        (some (aggSumQ ((procesarGlobal v p a o d d30 insp ab resc wa
          date_from date_to).diario.map (·.2)) op))
        (some (aggSumQ ((procesarGlobal v p a o d d30 insp ab resc wa
          date_from date_to).diario.map (·.2)) "Q_pasajeros"))) := by
  rw [procesarGlobal_periodo] at h
  have hcs := mem_groupAgg _ _ _ _ h
  have hf : ((procesarGlobal v p a o d d30 insp ab resc wa date_from
      date_to).diario.filter fun r =>
        (fun _ : ℤ => periodLabel date_from date_to) r.1 =
          periodLabel date_from date_to) =
      (procesarGlobal v p a o d d30 insp ab resc wa date_from
        date_to).diario := by
    rw [List.filter_eq_self]
    intro a _
    simp
  rw [hf] at hcs
  rw [hcs, getV_assignPcts_pct _ _ hop,
      getV_aggCells _ _ (op_mem_aggKeys op hop),
      if_pos (op_mem_sum_cols op hop),
      getV_aggCells _ "Q_pasajeros" (by decide), if_pos (by decide)]

/-! ## Lemmas: pivot structure -/

theorem pivot_struct (v p a o d d30 insp ab resc wa : DTable)
    (date_from date_to : ℤ)
    (h : (procesarGlobal v p a o d d30 insp ab resc wa date_from
      date_to).diario ≠ []) :
    (procesarGlobal v p a o d d30 insp ab resc wa date_from date_to).pivot =
      ⟨sectionIndex kpisList,
       (ptLoop (procesarGlobal v p a o d d30 insp ab resc wa date_from
           date_to).diario kpisList
         (sortedDates ((procesarGlobal v p a o d d30 insp ab resc wa
           date_from date_to).diario.map (·.1)))).map
         (fun lc => (lc.1, reVals kpisList (sectionIndex kpisList) lc.2))⟩ := by
  rcases hD : (procesarGlobal v p a o d d30 insp ab resc wa date_from
      date_to).diario with _ | ⟨r0, rest⟩
  · exact absurd hD h
  · have hk : r0.2.map Prod.fst = kpisList :=
      diario_row_keys v p a o d d30 insp ab resc wa date_from date_to r0
        (by rw [hD]; exact List.mem_cons_self _ _)
    rw [procesarGlobal_pivot, hD]
    show Pivot.mk (sectionIndex (r0.2.map Prod.fst)) _ = _
    rw [hk]

theorem recomputePct_eq (sub : List Cells) (op : String) :
    recomputePct sub op =
      if aggSumQ sub "Q_pasajeros" = 0 then none
      else some (100 * aggSumQ sub op / aggSumQ sub "Q_pasajeros") := by
  unfold recomputePct
  by_cases h : aggSumQ sub "Q_pasajeros" = 0
  · simp [h]
  · rw [if_neg h, if_neg h]
    congr 1
    ring

theorem pct_name_facts (op : String) (hop : op ∈ operativos) :
    op ++ "_pct_pasajeros" ∈ pctCols ∧
    op ++ "_pct_pasajeros" ∈ kpisList ∧
    op ++ "_pct_pasajeros" ∈ sectionIndex kpisList ∧
    strReplace (op ++ "_pct_pasajeros") "_pct_pasajeros" "" = op := by
  rcases operativos_cases op hop with rfl | rfl | rfl | rfl | rfl <;>
    exact ⟨by decide, by decide, by decide, by decide⟩

theorem pivot_span_col_pct (sub : List Cells)
    (op : String) (hop : op ∈ operativos) :
    rowOf (sectionIndex kpisList)
      (reVals kpisList (sectionIndex kpisList)
        (spanVals kpisList sub)) (op ++ "_pct_pasajeros") =
      recomputePct sub op := by
  obtain ⟨h1, h2, h3, h4⟩ := pct_name_facts op hop
  rw [rowOf_reVals _ _ _ _ (by decide) h3,
      rowOf_spanVals _ _ _ (by decide) h2, if_pos h1, h4]

theorem pivot_week_col (v p a o d d30 insp ab resc wa : DTable)
    (date_from date_to : ℤ) (dd : ℤ)
    (hd : dd ∈ sortedDates ((procesarGlobal v p a o d d30 insp ab resc wa
      date_from date_to).diario.map (·.1)))
    (hw : weekdayZ dd = 6) :
    (weekLabelZ (dd - 6) dd,
      reVals kpisList (sectionIndex kpisList)
        (spanVals kpisList
          (spanCells (procesarGlobal v p a o d d30 insp ab resc wa
            date_from date_to).diario (dd - 6) dd))) ∈
      (procesarGlobal v p a o d d30 insp ab resc wa date_from
        date_to).pivot.cols := by
  have hne : (procesarGlobal v p a o d d30 insp ab resc wa date_from
      date_to).diario ≠ [] := by
    intro he
    rw [he] at hd
    rw [show sortedDates (List.map (·.1) ([] : List (ℤ × Cells))) = []
        from rfl] at hd
    cases hd
  rw [pivot_struct _ _ _ _ _ _ _ _ _ _ _ _ hne]
  exact List.mem_map_of_mem _ (ptLoop_mem_week _ _ _ _ hd hw)

theorem pivot_month_col (v p a o d d30 insp ab resc wa : DTable)
    (date_from date_to : ℤ) (dd : ℤ)
    (hd : dd ∈ sortedDates ((procesarGlobal v p a o d d30 insp ab resc wa
      date_from date_to).diario.map (·.1)))
    (hm : monthCond dd (nextCovered
      (sortedDates ((procesarGlobal v p a o d d30 insp ab resc wa
        date_from date_to).diario.map (·.1))) dd) = true) :
    (monthLabelZ dd,
      reVals kpisList (sectionIndex kpisList)
        (spanVals kpisList
          (spanCells (procesarGlobal v p a o d d30 insp ab resc wa
            date_from date_to).diario (monthStartZ dd) dd))) ∈
      (procesarGlobal v p a o d d30 insp ab resc wa date_from
        date_to).pivot.cols := by
  have hne : (procesarGlobal v p a o d d30 insp ab resc wa date_from
      date_to).diario ≠ [] := by
    intro he
    rw [he] at hd
    rw [show sortedDates (List.map (·.1) ([] : List (ℤ × Cells))) = []
        from rfl] at hd
    cases hd
  rw [pivot_struct _ _ _ _ _ _ _ _ _ _ _ _ hne]
  exact List.mem_map_of_mem _
    (ptLoop_mem_month _ _ _ _ (sortedDates_pairwise_lt _) hd hm)

/-! ## Claim C2: no start/end validation exists -/

/-- C2 counterexample: the claim "the top-level consolidation fails with a
ConfigurationError when start > end, before any aggregation" is false on the
code — `procesar_global` contains no date validation and no
`ConfigurationError` exists anywhere in the repository.  With
start = 2024-03-05 > end = 2024-03-01 the operation completes normally and
returns four empty tables. -/
theorem c2_counterexample :
    procesarGlobal exV1 exE exE exO1 exE exE exE exE exE exE
        (daysFromCivil 2024 3 5) (daysFromCivil 2024 3 1) =
      ⟨[], [], [], ⟨[], []⟩⟩ ∧
    daysFromCivil 2024 3 1 < daysFromCivil 2024 3 5 := by
  constructor
  · decide
  · decide

/-- C2 amended: for every pair of date bounds with start > end, the
consolidation raises nothing: the date filter selects no rows and all four
outputs are empty. -/
theorem c2_amended (v p a o d d30 insp ab resc wa : DTable)
    (date_from date_to : ℤ) (h : date_to < date_from) :
    procesarGlobal v p a o d d30 insp ab resc wa date_from date_to =
      ⟨[], [], [], ⟨[], []⟩⟩ := by
  have hm : mergeFilterSort (sourceList v p a o d d30 insp ab resc wa)
      date_from date_to = [] := by
    simp only [mergeFilterSort]
    rw [List.filter_eq_nil_iff.mpr, List.map_nil]
    intro x _
    simp only [decide_eq_true_eq, not_and]
    intro h1 h2
    omega
  have h1 : (procesarGlobal v p a o d d30 insp ab resc wa date_from
      date_to).diario = [] := by
    rw [procesarGlobal_diario, hm]
    rfl
  have h2 : (procesarGlobal v p a o d d30 insp ab resc wa date_from
      date_to).semanal = [] := by
    rw [procesarGlobal_semanal, h1]
    rfl
  have h3 : (procesarGlobal v p a o d d30 insp ab resc wa date_from
      date_to).periodo = [] := by
    rw [procesarGlobal_periodo, h1]
    rfl
  have h4 : (procesarGlobal v p a o d d30 insp ab resc wa date_from
      date_to).pivot = ⟨[], []⟩ := by
    rw [procesarGlobal_pivot, h1]
    rfl
  calc procesarGlobal v p a o d d30 insp ab resc wa date_from date_to
      = ⟨(procesarGlobal v p a o d d30 insp ab resc wa date_from
            date_to).diario,
         (procesarGlobal v p a o d d30 insp ab resc wa date_from
            date_to).semanal,
         (procesarGlobal v p a o d d30 insp ab resc wa date_from
            date_to).periodo,
         (procesarGlobal v p a o d d30 insp ab resc wa date_from
            date_to).pivot⟩ := rfl
    _ = ⟨[], [], [], ⟨[], []⟩⟩ := by rw [h1, h2, h3, h4]

/-- C2 witness: the amended theorem at a concrete reversed range. -/
theorem c2_witness :
    procesarGlobal exV1 exE exE exO1 exE exE exE exE exE exE
        (daysFromCivil 2024 2 1) (daysFromCivil 2024 1 1) =
      ⟨[], [], [], ⟨[], []⟩⟩ :=
  c2_amended exV1 exE exE exO1 exE exE exE exE exE exE
    (daysFromCivil 2024 2 1) (daysFromCivil 2024 1 1) (by decide)

/-! ## Claim C9: the week label carries no year -/

/-- C9: `semana_humana` builds its label from the Monday day-of-month, the
Sunday day-of-month, and the Sunday month name only — no year.  2023-01-02
and 2034-01-02 lie in distinct Monday-Sunday weeks (their Mondays differ)
yet both weeks are labeled "2-8 Enero", and for a range containing both
dates the weekly rollup of `procesar_global` merges the two weeks into a
single output row (two daily rows, one weekly row). -/
theorem c9_label_collision_merges_weeks :
    semanaHumana dW2023 = "2-8 Enero" ∧
    semanaHumana dW2034 = "2-8 Enero" ∧
    dW2023 - (weekdayZ dW2023 : ℤ) ≠ dW2034 - (weekdayZ dW2034 : ℤ) ∧
    (procesarGlobal exE exE exE exOyears exE exE exE exE exE exE
        dW2023 dW2034).diario.length = 2 ∧
    (procesarGlobal exE exE exE exOyears exE exE exE exE exE exE
        dW2023 dW2034).semanal.length = 1 := by
  refine ⟨by decide, by decide, by decide, by decide, by decide⟩

/-! ## Claim C10: weekly rows are sorted by label string, not by time -/

/-- C10: the weekly rollup's rows always appear in lexicographic
(code-point) order of their `semana_humana` labels — the group-key sort of
pandas `groupby` — and this is not chronological: for the range
2025-05-05 … 2025-05-18 the two weekly rows are labeled
"12-18 Mayo" and "5-11 Mayo" in that order, while the week of the 5th
precedes the week of the 12th in time. -/
theorem c10_weekly_rows_lex_order :
    (∀ (v p a o d d30 insp ab resc wa : DTable) (date_from date_to : ℤ),
      List.Pairwise (fun x y => strLe x y = true)
        ((procesarGlobal v p a o d d30 insp ab resc wa date_from
          date_to).semanal.map Prod.fst)) ∧
    (procesarGlobal exE exE exE exOmay exE exE exE exE exE exE
        dMay5 (dMay12 + 6)).semanal.map Prod.fst =
      ["12-18 Mayo", "5-11 Mayo"] ∧
    semanaHumana dMay5 = "5-11 Mayo" ∧
    semanaHumana dMay12 = "12-18 Mayo" ∧
    dMay5 < dMay12 := by
  refine ⟨?_, by decide, by decide, by decide, by decide⟩
  intro v p a o d d30 insp ab resc wa date_from date_to
  rw [procesarGlobal_semanal, groupAgg_labels]
  exact sortedLabels_pairwise _

/-! ## Claim C8: the period rollup can produce zero rows -/

/-- C8 counterexample: the claim "the period rollup always contains exactly
one row" is false on the code — for a valid range with no covered dates
(here 2024-04-01 … 2024-04-05 while the only coverage is 2024-03-03),
`groupby` on the empty filtered table produces zero groups, so the period
output has zero rows. -/
theorem c8_counterexample :
    (procesarGlobal exE exE exE exO1 exE exE exE exE exE exE
        (daysFromCivil 2024 4 1) (daysFromCivil 2024 4 5)).periodo = [] ∧
    daysFromCivil 2024 4 1 ≤ daysFromCivil 2024 4 5 := by
  constructor
  · decide
  · decide

/-- C8 amended: the period rollup contains exactly one row, labeled with
the literal `date_from → date_to` range, whenever the filtered merged table
is nonempty; when the filtered range contains no covered dates it contains
zero rows. -/
theorem c8_amended (v p a o d d30 insp ab resc wa : DTable)
    (date_from date_to : ℤ) :
    ((procesarGlobal v p a o d d30 insp ab resc wa date_from
        date_to).diario = [] →
      (procesarGlobal v p a o d d30 insp ab resc wa date_from
        date_to).periodo = []) ∧
    ((procesarGlobal v p a o d d30 insp ab resc wa date_from
        date_to).diario ≠ [] →
      ∃ cs, (procesarGlobal v p a o d d30 insp ab resc wa date_from
        date_to).periodo = [(periodLabel date_from date_to, cs)]) := by
  constructor
  · intro h
    rw [procesarGlobal_periodo, h]
    rfl
  · intro h
    exact ⟨_, periodo_singleton v p a o d d30 insp ab resc wa
      date_from date_to h⟩

/-- C8 witness: both branches of the amended theorem at concrete inputs —
zero rows without coverage, one labeled row with coverage. -/
theorem c8_witness :
    (procesarGlobal exE exE exE exO1 exE exE exE exE exE exE
        (daysFromCivil 2024 4 10) (daysFromCivil 2024 4 15)).periodo = [] ∧
    ∃ cs, (procesarGlobal exV1 exE exE exO1 exE exE exE exE exE exE
        dMar3 dMar3).periodo = [(periodLabel dMar3 dMar3, cs)] :=
  ⟨(c8_amended exE exE exE exO1 exE exE exE exE exE exE
      (daysFromCivil 2024 4 10) (daysFromCivil 2024 4 15)).1 (by decide),
   (c8_amended exV1 exE exE exO1 exE exE exE exE exE exE
      dMar3 dMar3).2 (by decide)⟩

/-! ## Claim C3: mean-class zeros are nulled out -/

/-- C3 counterexample: the claim "every defined mean-class value — including
a legitimate zero score — is left unchanged" is false on the code — line
346 runs `df[c].replace({0: np.nan})` on every mean-class column except
`Nota_Auditorias`, so a merged CSAT value of `0` becomes undefined in the
daily output. -/
theorem c3_counterexample :
    ((mergeFilterSort (sourceList exE exPcsat exE exE exE exE exE exE exE
        exE) dMar3 dMar3).map fun r => getV r.2 "CSAT") = [some 0] ∧
    ((procesarGlobal exE exPcsat exE exE exE exE exE exE exE exE
        dMar3 dMar3).diario.map fun r => getV r.2 "CSAT") = [none] := by
  constructor
  · decide
  · decide

theorem mean_cases (c : String) (hc : c ∈ mean_cols) :
    c = "CSAT" ∨ c = "NPS Score" ∨ c = "Firt (h)" ∨ c = "Furt (h)" ∨
    c = "firt_pct" ∨ c = "furt_pct" ∨ c = "Nota_Auditorias" := by
  simpa [mean_cols] using hc

/-- C3 amended: in the Fill & Derive stage, for every mean-class column a
missing cell stays undefined and no cell is coerced to zero; but in every
mean-class column other than `Nota_Auditorias`, a defined value equal to
zero is replaced by undefined, while nonzero values (and all of
`Nota_Auditorias`) pass through unchanged. -/
theorem c3_amended (v p a o d d30 insp ab resc wa : DTable)
    (date_from date_to : ℤ) (c : String) (hc : c ∈ mean_cols) :
    ((procesarGlobal v p a o d d30 insp ab resc wa date_from
        date_to).diario.map fun r => getV r.2 c) =
      ((mergeFilterSort (sourceList v p a o d d30 insp ab resc wa)
        date_from date_to).map fun r =>
          if c = "Nota_Auditorias" then getV r.2 c
          else if getV r.2 c = some 0 then none
          else getV r.2 c) := by
  rw [procesarGlobal_diario, List.map_map]
  apply List.map_congr_left
  intro r hr
  have hk : r.2.map Prod.fst = mergedKpis0 := by
    rw [(mem_mergeFilterSort _ _ _ r hr).1, keys_mergedCells_srcs]
  have hnp : ∀ op ∈ operativos, op ++ "_pct_pasajeros" ≠ c := by
    intro op hop
    rcases operativos_cases op hop with rfl | rfl | rfl | rfl | rfl <;>
      (rcases mean_cases c hc with rfl | rfl | rfl | rfl | rfl | rfl | rfl <;>
        decide)
  have hnsum : c ∉ sum_cols := by
    rcases mean_cases c hc with rfl | rfl | rfl | rfl | rfl | rfl | rfl <;>
      decide
  have hmerged : c ∈ mergedKpis0 := by
    rcases mean_cases c hc with rfl | rfl | rfl | rfl | rfl | rfl | rfl <;>
      decide
  simp only [Function.comp_apply]
  rw [getV_assignPcts_not_pct _ _ hnp]
  have hs : lookupV (sumFill r.2) c = lookupV r.2 c :=
    lookupV_sumFill_not_mem _ _ hnsum
  by_cases hn : c = "Nota_Auditorias"
  · subst hn
    rw [getV_meanRepl_nota]
    simp [getV, hs]
  · have hp : (lookupV (sumFill r.2) c).isSome := by
      rw [hs, lookupV_isSome_iff, hk]
      exact hmerged
    rw [getV_meanRepl_mem _ _ hc hn hp]
    simp only [getV, hs, if_neg hn]

/-- C3 witness: the amended theorem at the concrete zero-CSAT input. -/
theorem c3_witness :
    ((procesarGlobal exE exPcsat exE exE exE exE exE exE exE exE
        dMar3 dMar3).diario.map fun r => getV r.2 "CSAT") =
      ((mergeFilterSort (sourceList exE exPcsat exE exE exE exE exE exE exE
        exE) dMar3 dMar3).map fun r =>
          if "CSAT" = "Nota_Auditorias" then getV r.2 "CSAT"
          else if getV r.2 "CSAT" = some 0 then none
          else getV r.2 "CSAT") :=
  c3_amended exE exPcsat exE exE exE exE exE exE exE exE dMar3 dMar3
    "CSAT" (by decide)

/-! ## Claim C5: reducer behavior on missing date columns -/

/-- C5 counterexample: the claim "every one of the ten reducers returns an
empty table with the correct column names when its expected date column is
missing" is false on the code — `process_offtime` accesses
`df["tm_start_local_at"]` unguarded (line 204) and raises `KeyError`. -/
theorem c5_counterexample :
    process_offtime ⟨["Segment Arrived to Airport vs Requested"], []⟩ =
      .error (.keyError "tm_start_local_at") := by
  decide

theorem renamePerf_preserves (c : String)
    (h : renamePerf c = "Fecha de Referencia") : c = "Fecha de Referencia" := by
  by_cases e1 : c = "% Firt"
  · subst e1; simp [renamePerf] at h
  · by_cases e2 : c = "% Furt"
    · subst e2; simp [renamePerf] at h
    · rw [renamePerf, if_neg e1, if_neg e2] at h
      exact h

theorem forceCols_cols (l : List String) (df : RawDF) :
    (l.foldl (fun df c =>
      if c ∈ df.cols then df.setColF c toNumericCoerce else df) df).cols =
      df.cols := by
  induction l generalizing df with
  | nil => rfl
  | cons a t ih =>
      simp only [List.foldl_cons]
      rw [ih]
      by_cases h : a ∈ df.cols <;> simp [h, RawDF.setColF]

/-- C5 amended: of the ten per-source reducers, five (`process_ventas`,
`process_auditorias`, `process_duracion30`, `process_rescates`,
`process_whatsapp`) guard their date column and return an empty table with
the correct column names and zero rows when it is missing; the other five
(`process_performance`, `process_offtime`, `process_duracion`,
`process_inspecciones`, `process_abandonados`) access the missing column
unguarded and raise a `KeyError` instead. -/
theorem c5_amended :
    (∀ df : RawDF, "tm_start_local_at" ∉ (cleanCols df).cols →
      "createdAt_local" ∉ (cleanCols df).cols →
      "date" ∉ (cleanCols df).cols →
      process_ventas df = .ok ⟨ventasEmptyCols, []⟩) ∧
    (∀ df : RawDF, "Fecha de Referencia" ∉ (cleanCols df).cols →
      process_performance df = .error (.keyError "Fecha de Referencia")) ∧
    (∀ df : RawDF, "Date Time Reference" ∉ (cleanCols df).cols →
      "Date Time" ∉ (cleanCols df).cols →
      "ï»¿Date Time" ∉ (cleanCols df).cols →
      process_auditorias df =
        .ok ⟨["fecha", "Q_Auditorias", "Nota_Auditorias"], []⟩) ∧
    (∀ df : RawDF, "tm_start_local_at" ∉ (cleanCols df).cols →
      process_offtime df = .error (.keyError "tm_start_local_at")) ∧
    (∀ df : RawDF, "Start At Local Dt" ∉ (cleanCols df).cols →
      process_duracion df = .error (.keyError "Start At Local Dt")) ∧
    (∀ df : RawDF, "Day of tm_start_local_at" ∉ (cleanCols df).cols →
      process_duracion30 df = .ok ⟨["fecha", "Duracion_30"], []⟩) ∧
    (∀ df : RawDF, "Fecha" ∉ (cleanCols df).cols →
      process_inspecciones df = .error (.keyError "Fecha")) ∧
    (∀ df : RawDF, "Marca temporal" ∉ (cleanCols df).cols →
      process_abandonados df = .error (.keyError "Marca temporal")) ∧
    (∀ df : RawDF, "Start At Local Dt" ∉ (cleanCols df).cols →
      process_rescates df = .ok ⟨["fecha", "Rescates"], []⟩) ∧
    (∀ df : RawDF, "Created At Local Dt" ∉ (cleanCols df).cols →
      process_whatsapp df = .ok ⟨["fecha", "Q_Tickets_WA"], []⟩) := by
  refine ⟨?_, ?_, ?_, ?_, ?_, ?_, ?_, ?_, ?_, ?_⟩
  · intro df h1 h2 h3
    simp [process_ventas, h1, h2, h3, pure, Except.pure]
  · intro df h1
    have h2 : "Fecha de Referencia" ∉ ((cleanCols df).cols.map renamePerf) := by
      intro hmem
      rcases List.mem_map.mp hmem with ⟨c, hcmem, he⟩
      exact h1 (renamePerf_preserves c he ▸ hcmem)
    simp only [process_performance]
    set df3 := List.foldl (fun df c =>
      if c ∈ df.cols then df.setColF c toNumericCoerce else df)
      (⟨(cleanCols df).cols.map renamePerf,
        (cleanCols df).rows.map (List.map fun cv =>
          (renamePerf cv.1, cv.2))⟩ : RawDF) perfForceCols with hdf3
    have h3 : "Fecha de Referencia" ∉ df3.cols := by
      rw [hdf3, forceCols_cols]
      exact h2
    have h4 : df3.colE "Fecha de Referencia" =
        .error (.keyError "Fecha de Referencia") := by
      rw [RawDF.colE, if_neg h3]
    rw [h4]
    rfl
  · intro df h1 h2 h3
    have hf : audDateCandidates.find? (· ∈ (cleanCols df).cols) = none := by
      rw [List.find?_eq_none]
      intro x hx
      rcases show x = "Date Time Reference" ∨ x = "Date Time" ∨
          x = "ï»¿Date Time" from by simpa [audDateCandidates] using hx with
        rfl | rfl | rfl <;> simpa
    simp [process_auditorias, hf, pure, Except.pure]
  · intro df h1
    simp [process_offtime, RawDF.colE, h1, Bind.bind, Except.bind]
  · intro df h1
    simp [process_duracion, RawDF.colE, h1, Bind.bind, Except.bind]
  · intro df h1
    simp [process_duracion30, h1, pure, Except.pure]
  · intro df h1
    simp [process_inspecciones, RawDF.colE, h1, Bind.bind, Except.bind]
  · intro df h1
    simp [process_abandonados, RawDF.colE, h1, Bind.bind, Except.bind]
  · intro df h1
    simp [process_rescates, h1, pure, Except.pure]
  · intro df h1
    simp [process_whatsapp, h1, pure, Except.pure]

/-- C5 witness: the amended theorem applied to a concrete one-column frame:
the guarded reducers return their empty frames, the unguarded ones raise. -/
theorem c5_witness :
    process_ventas ⟨["x"], []⟩ = .ok ⟨ventasEmptyCols, []⟩ ∧
    process_performance ⟨["x"], []⟩ =
      .error (.keyError "Fecha de Referencia") ∧
    process_rescates ⟨["x"], []⟩ = .ok ⟨["fecha", "Rescates"], []⟩ ∧
    process_abandonados ⟨["x"], []⟩ = .error (.keyError "Marca temporal") := by
  have h := c5_amended
  exact ⟨h.1 _ (by decide) (by decide) (by decide),
         h.2.1 _ (by decide),
         h.2.2.2.2.2.2.2.2.1 _ (by decide),
         h.2.2.2.2.2.2.2.1 _ (by decide)⟩

/-! ## Claim C1: ratio KPIs are ratios of rolled-up sums -/

/-- C1 counterexample: the claim "the ratio value equals
`100 * rollup(n) / rollup(d)`" is exact at the pivot's recomputed columns
but false at the daily (and weekly and period) resolution, where the code
rounds to 4 decimals: with OFF_TIME = 1 and Q_pasajeros = 3 on 2024-03-03
the daily OFF_TIME ratio cell holds 33.3333, not 100·1/3. -/
theorem c1_counterexample :
    (outMar3.diario.map fun r => getV r.2 "OFF_TIME") = [some 1] ∧
    (outMar3.diario.map fun r => getV r.2 "Q_pasajeros") = [some 3] ∧
    (outMar3.diario.map fun r => getV r.2 "OFF_TIME_pct_pasajeros") =
      [some (333333 / 10000)] ∧
    some ((333333 : ℚ) / 10000) ≠ some ((100 : ℚ) * 1 / 3) := by
  refine ⟨by decide, by decide, by decide, by decide⟩

/-- C1 amended: every ratio-class KPI is recomputed from that resolution's
own rolled-up numerator and denominator (never by averaging daily ratios),
undefined exactly when the rolled-up `Q_pasajeros` is zero; the daily,
weekly and period values carry an extra rounding to 4 decimals
(`round4O ∘ safePct`), while the pivot's week-ending and month-ending
columns hold the exact unrounded ratio. -/
theorem c1_amended (v p a o d d30 insp ab resc wa : DTable)
    (date_from date_to : ℤ) :
    (∀ r ∈ (procesarGlobal v p a o d d30 insp ab resc wa date_from
        date_to).diario, ∀ op ∈ operativos,
      getV r.2 (op ++ "_pct_pasajeros") =
        round4O (safePct (getV r.2 op) (getV r.2 "Q_pasajeros"))) ∧
    (∀ L cs, (L, cs) ∈ (procesarGlobal v p a o d d30 insp ab resc wa
        date_from date_to).semanal → ∀ op ∈ operativos,
      getV cs (op ++ "_pct_pasajeros") =
        round4O (safePct
          (some (aggSumQ (((procesarGlobal v p a o d d30 insp ab resc wa
            date_from date_to).diario.filter fun r =>
              semanaHumana r.1 = L).map (·.2)) op))
          (some (aggSumQ (((procesarGlobal v p a o d d30 insp ab resc wa
            date_from date_to).diario.filter fun r =>
              semanaHumana r.1 = L).map (·.2)) "Q_pasajeros")))) ∧
    (∀ cs, (periodLabel date_from date_to, cs) ∈
        (procesarGlobal v p a o d d30 insp ab resc wa date_from
          date_to).periodo → ∀ op ∈ operativos,
      getV cs (op ++ "_pct_pasajeros") =
        round4O (safePct
          (some (aggSumQ ((procesarGlobal v p a o d d30 insp ab resc wa
            date_from date_to).diario.map (·.2)) op))
          (some (aggSumQ ((procesarGlobal v p a o d d30 insp ab resc wa
            date_from date_to).diario.map (·.2)) "Q_pasajeros")))) ∧
    (∀ dd ∈ sortedDates ((procesarGlobal v p a o d d30 insp ab resc wa
        date_from date_to).diario.map (·.1)), weekdayZ dd = 6 →
      ∀ op ∈ operativos, ∃ vals,
        (weekLabelZ (dd - 6) dd, vals) ∈
          (procesarGlobal v p a o d d30 insp ab resc wa date_from
            date_to).pivot.cols ∧
        rowOf (procesarGlobal v p a o d d30 insp ab resc wa date_from
            date_to).pivot.index vals (op ++ "_pct_pasajeros") =
          (if aggSumQ (spanCells (procesarGlobal v p a o d d30 insp ab resc
              wa date_from date_to).diario (dd - 6) dd) "Q_pasajeros" = 0
           then none
           else some (100 * aggSumQ (spanCells (procesarGlobal v p a o d
              d30 insp ab resc wa date_from date_to).diario (dd - 6) dd) op /
             aggSumQ (spanCells (procesarGlobal v p a o d d30 insp ab resc
              wa date_from date_to).diario (dd - 6) dd) "Q_pasajeros"))) ∧
    (∀ dd ∈ sortedDates ((procesarGlobal v p a o d d30 insp ab resc wa
        date_from date_to).diario.map (·.1)),
      monthCond dd (nextCovered (sortedDates ((procesarGlobal v p a o d d30
        insp ab resc wa date_from date_to).diario.map (·.1))) dd) = true →
      ∀ op ∈ operativos, ∃ vals,
        (monthLabelZ dd, vals) ∈
          (procesarGlobal v p a o d d30 insp ab resc wa date_from
            date_to).pivot.cols ∧
        rowOf (procesarGlobal v p a o d d30 insp ab resc wa date_from
            date_to).pivot.index vals (op ++ "_pct_pasajeros") =
          (if aggSumQ (spanCells (procesarGlobal v p a o d d30 insp ab resc
              wa date_from date_to).diario (monthStartZ dd) dd)
              "Q_pasajeros" = 0
           then none
           else some (100 * aggSumQ (spanCells (procesarGlobal v p a o d
              d30 insp ab resc wa date_from date_to).diario (monthStartZ dd)
              dd) op /
             aggSumQ (spanCells (procesarGlobal v p a o d d30 insp ab resc
              wa date_from date_to).diario (monthStartZ dd) dd)
              "Q_pasajeros"))) := by
  refine ⟨diario_pct_eq v p a o d d30 insp ab resc wa date_from date_to,
          semanal_pct_eq v p a o d d30 insp ab resc wa date_from date_to,
          periodo_pct_eq v p a o d d30 insp ab resc wa date_from date_to,
          ?_, ?_⟩
  · intro dd hd hw op hop
    have hne : (procesarGlobal v p a o d d30 insp ab resc wa date_from
        date_to).diario ≠ [] := by
      intro he
      rw [he] at hd
      rw [show sortedDates (List.map (·.1) ([] : List (ℤ × Cells))) = []
          from rfl] at hd
      cases hd
    refine ⟨_, pivot_week_col v p a o d d30 insp ab resc wa date_from
      date_to dd hd hw, ?_⟩
    have hidx : (procesarGlobal v p a o d d30 insp ab resc wa date_from
        date_to).pivot.index = sectionIndex kpisList := by
      rw [pivot_struct _ _ _ _ _ _ _ _ _ _ _ _ hne]
    rw [hidx, pivot_span_col_pct _ op hop, recomputePct_eq]
  · intro dd hd hm op hop
    have hne : (procesarGlobal v p a o d d30 insp ab resc wa date_from
        date_to).diario ≠ [] := by
      intro he
      rw [he] at hd
      rw [show sortedDates (List.map (·.1) ([] : List (ℤ × Cells))) = []
          from rfl] at hd
      cases hd
    refine ⟨_, pivot_month_col v p a o d d30 insp ab resc wa date_from
      date_to dd hd hm, ?_⟩
    have hidx : (procesarGlobal v p a o d d30 insp ab resc wa date_from
        date_to).pivot.index = sectionIndex kpisList := by
      rw [pivot_struct _ _ _ _ _ _ _ _ _ _ _ _ hne]
    rw [hidx, pivot_span_col_pct _ op hop, recomputePct_eq]

/-- C1 witness: the amended theorem at the 2024-03-03 example, at the daily
resolution and at the pivot's week-ending column. -/
theorem c1_witness :
    (getV (diarioHead outMar3).2 ("OFF_TIME" ++ "_pct_pasajeros") =
      round4O (safePct (getV (diarioHead outMar3).2 "OFF_TIME")
        (getV (diarioHead outMar3).2 "Q_pasajeros"))) ∧
    (∃ vals, (weekLabelZ (dMar3 - 6) dMar3, vals) ∈ outMar3.pivot.cols ∧
      rowOf outMar3.pivot.index vals ("OFF_TIME" ++ "_pct_pasajeros") =
        (if aggSumQ (spanCells outMar3.diario (dMar3 - 6) dMar3)
            "Q_pasajeros" = 0 then none
         else some (100 * aggSumQ (spanCells outMar3.diario (dMar3 - 6)
            dMar3) "OFF_TIME" /
           aggSumQ (spanCells outMar3.diario (dMar3 - 6) dMar3)
            "Q_pasajeros"))) := by
  have h := c1_amended exV1 exE exE exO1 exE exE exE exE exE exE dMar3 dMar3
  exact ⟨h.1 (diarioHead outMar3) (by decide) "OFF_TIME" (by decide),
         h.2.2.2.1 dMar3 (by decide) (by decide) "OFF_TIME" (by decide)⟩

/-! ## Claim C4: 4-decimal rounding of ratio values -/

/-- C4 counterexample: the claim "every defined ratio value at the pivot's
week-ending and month-ending columns is rounded to 4 decimal places" is
false on the code — `recompute_pct` (lines 386-389) does not round: at the
week-ending column for 2024-03-03 the OFF_TIME ratio is 100/3, which is not
an integer multiple of 1/10000. -/
theorem c4_counterexample :
    (∃ vals, (weekLabelZ (dMar3 - 6) dMar3, vals) ∈ outMar3.pivot.cols ∧
      rowOf outMar3.pivot.index vals "OFF_TIME_pct_pasajeros" =
        some (100 / 3)) ∧
    ¬ ∃ k : ℤ, (100 : ℚ) / 3 = (k : ℚ) / 10000 := by
  constructor
  · refine ⟨((outMar3.pivot.cols.drop 1).head?.map Prod.snd).getD [],
      by decide, by decide⟩
  · rintro ⟨k, hk⟩
    have h3 : ((10000 : ℚ)) ≠ 0 := by norm_num
    have h1 : (1000000 : ℚ) = 3 * (k : ℚ) := by
      field_simp at hk
      linarith
    have h2 : (1000000 : ℤ) = 3 * k := by exact_mod_cast h1
    omega

theorem round4O_shape (o : Option ℚ) (x : ℚ) (h : round4O o = some x) :
    ∃ k : ℤ, x = (k : ℚ) / 10000 := by
  cases o with
  | none => cases h
  | some q =>
      simp only [round4O, Option.some.injEq] at h
      exact ⟨round (q * 10000), by rw [← h]; rfl⟩

/-- C4 amended: every defined ratio-class value in the daily table, the
weekly rollup and the period rollup is an integer multiple of 1/10000
(rounded to exactly 4 decimal places); the pivot's recomputed week-ending
and month-ending ratio values are not rounded. -/
theorem c4_amended (v p a o d d30 insp ab resc wa : DTable)
    (date_from date_to : ℤ) :
    (∀ r ∈ (procesarGlobal v p a o d d30 insp ab resc wa date_from
        date_to).diario, ∀ op ∈ operativos, ∀ x : ℚ,
      getV r.2 (op ++ "_pct_pasajeros") = some x →
        ∃ k : ℤ, x = (k : ℚ) / 10000) ∧
    (∀ L cs, (L, cs) ∈ (procesarGlobal v p a o d d30 insp ab resc wa
        date_from date_to).semanal → ∀ op ∈ operativos, ∀ x : ℚ,
      getV cs (op ++ "_pct_pasajeros") = some x →
        ∃ k : ℤ, x = (k : ℚ) / 10000) ∧
    (∀ cs, (periodLabel date_from date_to, cs) ∈
        (procesarGlobal v p a o d d30 insp ab resc wa date_from
          date_to).periodo → ∀ op ∈ operativos, ∀ x : ℚ,
      getV cs (op ++ "_pct_pasajeros") = some x →
        ∃ k : ℤ, x = (k : ℚ) / 10000) := by
  refine ⟨?_, ?_, ?_⟩
  · intro r hr op hop x hx
    rw [diario_pct_eq v p a o d d30 insp ab resc wa date_from date_to r
      hr op hop] at hx
    exact round4O_shape _ x hx
  · intro L cs hcs op hop x hx
    rw [semanal_pct_eq v p a o d d30 insp ab resc wa date_from date_to L
      cs hcs op hop] at hx
    exact round4O_shape _ x hx
  · intro cs hcs op hop x hx
    rw [periodo_pct_eq v p a o d d30 insp ab resc wa date_from date_to
      cs hcs op hop] at hx
    exact round4O_shape _ x hx

/-- C4 witness: the amended theorem at the daily OFF_TIME ratio of the
2024-03-03 example. -/
theorem c4_witness : ∃ k : ℤ, (333333 : ℚ) / 10000 = (k : ℚ) / 10000 :=
  (c4_amended exV1 exE exE exO1 exE exE exE exE exE exE dMar3 dMar3).1
    (diarioHead outMar3) (by decide) "OFF_TIME" (by decide)
    ((333333 : ℚ) / 10000) (by decide)

/-! ## Claim C6: pivot day columns cover only covered dates -/

/-- C6 counterexample: the claim "the pivot contains one day column for
every calendar day in the range, regardless of coverage" is false on the
code — `all_dates` is built from the dates present in the merged table, so
an uncovered day gets no column: for the range 2024-03-01 … 2024-03-03 with
coverage only on the 1st and the 3rd, the pivot has two day columns and no
"02/03/2024" column. -/
theorem c6_counterexample :
    ((procesarGlobal exE exE exE exOgap exE exE exE exE exE exE dMar1
        dMar3).pivot.cols.map Prod.fst) =
      ["01/03/2024", "03/03/2024", "Semana 26 al 03 Marzo 2024",
       "Mes Marzo 2024"] ∧
    dMar1 ≤ dMar1 + 1 ∧ dMar1 + 1 ≤ dMar3 ∧
    fmtDate (dMar1 + 1) = "02/03/2024" := by
  refine ⟨by decide, by decide, by decide, by decide⟩

/-- C6 amended: the pivot's column labels are exactly, in order: one day
column per distinct covered date (ascending), a week-ending column
immediately after every covered Sunday, and a month-ending column after
every covered date whose successor falls in a different month or year (or
which is last); the covered dates are those of the daily table, not every
calendar day of the range. -/
theorem c6_amended (v p a o d d30 insp ab resc wa : DTable)
    (date_from date_to : ℤ)
    (h : (procesarGlobal v p a o d d30 insp ab resc wa date_from
      date_to).diario ≠ []) :
    ((procesarGlobal v p a o d d30 insp ab resc wa date_from
        date_to).pivot.cols.map Prod.fst =
      (withNext (sortedDates ((procesarGlobal v p a o d d30 insp ab resc wa
        date_from date_to).diario.map (·.1)))).flatMap (fun dn =>
          fmtDate dn.1 ::
            ((if weekdayZ dn.1 = 6 then [weekLabelZ (dn.1 - 6) dn.1]
              else []) ++
             (if monthCond dn.1 dn.2 then [monthLabelZ dn.1] else [])))) ∧
    List.Pairwise (· < ·)
      (sortedDates ((procesarGlobal v p a o d d30 insp ab resc wa date_from
        date_to).diario.map (·.1))) ∧
    (∀ dd : ℤ, dd ∈ sortedDates ((procesarGlobal v p a o d d30 insp ab resc
        wa date_from date_to).diario.map (·.1)) ↔
      dd ∈ (procesarGlobal v p a o d d30 insp ab resc wa date_from
        date_to).diario.map (·.1)) := by
  refine ⟨?_, sortedDates_pairwise_lt _, fun dd => mem_sortedDates _ _⟩
  rw [pivot_struct _ _ _ _ _ _ _ _ _ _ _ _ h]
  show ((ptLoop _ kpisList _).map _).map Prod.fst = _
  rw [List.map_map]
  rw [show (Prod.fst ∘ fun lc : String × List (Option ℚ) =>
      (lc.1, reVals kpisList (sectionIndex kpisList) lc.2)) = Prod.fst
    from funext fun lc => rfl]
  exact ptLoop_labels _ _ _

/-- C6 witness: the amended theorem at a fully covered 10-day range
2024-05-22 … 2024-05-31 containing exactly one Sunday (the 26th) and ending
on the last day of its month: 10 day columns, one week-ending column after
the Sunday, one month-ending column at the end — 12 columns in emission
order. -/
theorem c6_witness :
    ((procesarGlobal exE exE exE exOten exE exE exE exE exE exE dMay22
        dMay31).pivot.cols.map Prod.fst) =
      ["22/05/2024", "23/05/2024", "24/05/2024", "25/05/2024", "26/05/2024",
       "Semana 20 al 26 Mayo 2024", "27/05/2024", "28/05/2024",
       "29/05/2024", "30/05/2024", "31/05/2024", "Mes Mayo 2024"] := by
  have h := (c6_amended exE exE exE exOten exE exE exE exE exE exE dMay22
    dMay31 (by decide)).1
  rw [h]
  decide

/-! ## Claim C7: the month-ending column condition -/

/-- C7 counterexample: the claim "a month-ending column is inserted after a
date's column iff that date is the last day of its calendar month or the
last date in the filtered range" is false on the code — line 411 triggers
on the next covered date's month: with coverage only on 2024-01-15 and
2024-02-10 in the range 2024-01-01 … 2024-02-28, a "Mes Enero 2024" column
appears after 2024-01-15, although the 15th is not the last day of January,
not the range end, and not the last covered date. -/
theorem c7_counterexample :
    "Mes Enero 2024" ∈ ((procesarGlobal exE exE exE exOmonth exE exE exE
        exE exE exE dJan1 dFeb28).pivot.cols.map Prod.fst) ∧
    monthLabelZ dJan15 = "Mes Enero 2024" ∧
    dayOf dJan15 = 15 ∧ monthOf (dJan15 + 1) = 1 ∧
    yearOf (dJan15 + 1) = 2024 ∧
    dJan15 ≠ dFeb28 ∧
    dFeb10 ∈ ((procesarGlobal exE exE exE exOmonth exE exE exE exE exE exE
        dJan1 dFeb28).diario.map (·.1)) ∧
    dJan15 < dFeb10 := by
  refine ⟨by decide, by decide, by decide, by decide, by decide, by decide,
    by decide, by decide⟩

/-- C7 amended: a month-ending column labeled `Mes <month> <year>`,
aggregating the span from the first day of the month through the covered
date `dd` with the per-class rules (`spanVals`), is emitted for `dd` if and
only if the next covered date falls in a different calendar month or year,
or `dd` is the last covered date (`monthCond`); and every pivot column is a
day column of a covered date, a week-ending column of a covered Sunday, or
such a month-ending column. -/
theorem c7_amended (v p a o d d30 insp ab resc wa : DTable)
    (date_from date_to : ℤ)
    (h : (procesarGlobal v p a o d d30 insp ab resc wa date_from
      date_to).diario ≠ []) :
    (∀ dd ∈ sortedDates ((procesarGlobal v p a o d d30 insp ab resc wa
        date_from date_to).diario.map (·.1)),
      monthCond dd (nextCovered (sortedDates ((procesarGlobal v p a o d d30
        insp ab resc wa date_from date_to).diario.map (·.1))) dd) = true →
      (monthLabelZ dd, reVals kpisList (sectionIndex kpisList)
        (spanVals kpisList (spanCells (procesarGlobal v p a o d d30 insp ab
          resc wa date_from date_to).diario (monthStartZ dd) dd))) ∈
        (procesarGlobal v p a o d d30 insp ab resc wa date_from
          date_to).pivot.cols) ∧
    (∀ lv ∈ (procesarGlobal v p a o d d30 insp ab resc wa date_from
        date_to).pivot.cols,
      (∃ dd ∈ sortedDates ((procesarGlobal v p a o d d30 insp ab resc wa
          date_from date_to).diario.map (·.1)),
        lv = (fmtDate dd, reVals kpisList (sectionIndex kpisList)
          (dayVals (procesarGlobal v p a o d d30 insp ab resc wa date_from
            date_to).diario kpisList dd))) ∨
      (∃ dd ∈ sortedDates ((procesarGlobal v p a o d d30 insp ab resc wa
          date_from date_to).diario.map (·.1)),
        weekdayZ dd = 6 ∧
        lv = (weekLabelZ (dd - 6) dd, reVals kpisList (sectionIndex
          kpisList) (spanVals kpisList (spanCells (procesarGlobal v p a o d
            d30 insp ab resc wa date_from date_to).diario (dd - 6) dd)))) ∨
      (∃ dd ∈ sortedDates ((procesarGlobal v p a o d d30 insp ab resc wa
          date_from date_to).diario.map (·.1)),
        monthCond dd (nextCovered (sortedDates ((procesarGlobal v p a o d
          d30 insp ab resc wa date_from date_to).diario.map (·.1))) dd) =
          true ∧
        lv = (monthLabelZ dd, reVals kpisList (sectionIndex kpisList)
          (spanVals kpisList (spanCells (procesarGlobal v p a o d d30 insp
            ab resc wa date_from date_to).diario (monthStartZ dd) dd))))) := by
  constructor
  · intro dd hd hm
    exact pivot_month_col v p a o d d30 insp ab resc wa date_from date_to
      dd hd hm
  · intro lv hlv
    rw [pivot_struct _ _ _ _ _ _ _ _ _ _ _ _ h] at hlv
    rcases List.mem_map.mp hlv with ⟨lc, hlc, rfl⟩
    rcases ptLoop_sound _ _ _ (sortedDates_pairwise_lt _) lc hlc with
      ⟨dd, hd, he⟩ | ⟨dd, hd, hw, he⟩ | ⟨dd, hd, hm, he⟩
    · exact Or.inl ⟨dd, hd, by rw [he]⟩
    · exact Or.inr (Or.inl ⟨dd, hd, hw, by rw [he]⟩)
    · exact Or.inr (Or.inr ⟨dd, hd, hm, by rw [he]⟩)

/-- C7 witness: the amended theorem emits the mid-month "Mes Enero 2024"
column for 2024-01-15 in the gap example. -/
theorem c7_witness :
    ∃ vals, (monthLabelZ dJan15, vals) ∈
      (procesarGlobal exE exE exE exOmonth exE exE exE exE exE exE dJan1
        dFeb28).pivot.cols :=
  ⟨_, (c7_amended exE exE exE exOmonth exE exE exE exE exE exE dJan1 dFeb28
    (by decide)).1 dJan15 (by decide) (by decide)⟩
